import Mathlib

/-!
# Shared-memory frame sink (`src/media/video/sinkclient.cpp`)

A shallow embedding of `SemGuardLock`, `ShmHolder` and `SinkClient`.

Conventions of the embedding.

* A call either returns normally (`Except.ok`) or ends in a `Fault`.
* The operating system is an oracle: each call receives the outcomes of the
  system calls it may perform (`ResizeOS`, `RenderOS`, `CtorOS`).  A `sem_wait`
  either returns `0` or a negative value; blocking is not represented.
* `area_` is a pointer.  The embedding records, next to its value, whether the
  range it points at is still mapped (`Area.mapped`) or has been given back
  with `munmap` (`Area.released`); `MAP_FAILED` is `Area.mapFailed`.
* The header lives at the start of the shared object, so its contents survive
  `munmap`/`mmap` (the mapping is `MAP_SHARED` and `ftruncate` never cuts the
  object below `sizeof(SHMHeader) + 15`).  They are the field `header`.
* `std::size_t`, `std::uintptr_t` and the size fields of the header are natural
  numbers; only the generation counter wraps.
-/

namespace Ring.Video

/-! ## Outcomes -/

/-- Ways in which a call does not return normally. -/
inductive Fault where
  /-- access through a null, `MAP_FAILED` or released pointer, or a write
  outside the mapped range (undefined behaviour) -/
  | segv
  /-- a `std::runtime_error` leaves the function -/
  | runtimeError
  /-- a `std::logic_error` leaves the function -/
  | logicError
  /-- an exception reached the boundary of a `noexcept` function:
  `std::terminate` -/
  | terminate
  /-- the name-probing loop of the constructor used up its fuel -/
  | fuel
  deriving DecidableEq

/-- What `noexcept` does to a fault: an exception becomes `std::terminate`. -/
def noexceptFault : Fault → Fault
  | .runtimeError => .terminate
  | .logicError => .terminate
  | e => e

/-- A function body run under `noexcept`. -/
def noexcept {α : Type} (r : Except Fault α) : Except Fault α :=
  match r with
  | .ok a => .ok a
  | .error e => .error (noexceptFault e)

/-- Layout parameters fixed by `shm_header.h`, which is not part of the
sources: `sizeof(SHMHeader)` and the width of the generation counter. -/
structure Layout where
  hdrSize : Nat
  genBits : Nat
  deriving DecidableEq

/-- Modelled from the spec: the header `SHMHeader` of `shm_header.h` (missing
from the sources).  Fields in the order of the specification: mutual-exclusion
primitive, frame-ready counting primitive, generation counter (unsigned,
wraps), current frame byte size, total mapped size, write-window byte offset,
read-window byte offset.  The two semaphores are represented by their
counts. -/
structure SHMHeader where
  mutex : Nat
  frameGenMutex : Nat
  frameGen : Nat
  frameSize : Nat
  mapSize : Nat
  writeOffset : Nat
  readOffset : Nat
  deriving DecidableEq

/-- The header after `std::memset(area_, 0, areaSize_)`. -/
def SHMHeader.zero : SHMHeader :=
  { mutex := 0, frameGenMutex := 0, frameGen := 0, frameSize := 0,
    mapSize := 0, writeOffset := 0, readOffset := 0 }

/-- The pointer `area_` together with the state of the range it points at. -/
inductive Area where
  /-- `area_ == MAP_FAILED` -/
  | mapFailed
  /-- `area_` is the base address of a live mapping -/
  | mapped (base : Nat)
  /-- `area_` still holds `base`, but the range was given back by `munmap` -/
  | released (base : Nat)
  deriving DecidableEq

/-- Pixel formats used by the sink. -/
inductive PixFmt where
  | BGRA
  | RGBA
  deriving DecidableEq

/-- The part of `VideoFrame` the sink reads. -/
structure VideoFrame where
  width : Nat
  height : Nat
  deriving DecidableEq

/-- Modelled from the spec: `videoFrameSize` (defined outside the sources).
Both destination formats of the sink are tightly packed with four bytes per
pixel ("a buffer of exactly `100*100*4` bytes", "`640*480*bytesPerPixel`"). -/
def videoFrameSize (_format : PixFmt) (width height : Nat) : Nat :=
  width * height * 4

/-- The state of a `ShmHolder`.  `header` is the header stored in the shared
object; `pixelWrites` records, newest first, every write of the scaler into
the data region as (offset relative to `area_->data`, byte count). -/
structure ShmHolder where
  area_ : Area
  areaSize_ : Nat
  openedName_ : String
  fd_ : Int
  header : SHMHeader
  pixelWrites : List (Nat × Nat)
  deriving DecidableEq

/-- Outcomes of the system calls of one `resizeArea`. -/
structure ResizeOS where
  /-- `::ftruncate` returned `0` -/
  ftruncateOk : Bool
  /-- result of `::mmap`: `none` is `MAP_FAILED`, `some base` the new base -/
  mmapRes : Option Nat
  /-- `::sem_wait(&area_->mutex)` returned `0` -/
  semWaitOk : Bool
  deriving DecidableEq

/-- Outcomes of the system calls of one `renderFrame`. -/
structure RenderOS where
  resize : ResizeOS
  /-- `::sem_wait` of the publishing block returned `0` -/
  publishSemWaitOk : Bool
  deriving DecidableEq

/-- Every system call of the `renderFrame` succeeds. -/
def RenderOS.allOk (os : RenderOS) : Bool :=
  os.resize.ftruncateOk && os.resize.mmapRes.isSome && os.resize.semWaitOk &&
    os.publishSemWaitOk

/-! ## `SemGuardLock` -/

/-- The constructor of `SemGuardLock`: `sem_wait`, and a `std::logic_error`
when it returns a negative value. -/
def SemGuardLock.acquire (semWaitOk : Bool) (h : SHMHeader) :
    Except Fault SHMHeader :=
  if semWaitOk then .ok { h with mutex := h.mutex - 1 } else .error .logicError

/-- The destructor of `SemGuardLock`: `sem_post`. -/
def SemGuardLock.release (h : SHMHeader) : SHMHeader :=
  { h with mutex := h.mutex + 1 }

/-! ## `ShmHolder` -/

/-- The expression `x & ~15`: the four low bits cleared. -/
def andNot15 (x : Nat) : Nat := x - x % 16

/-- The expression `(n + 15) & ~15`. -/
def align16 (n : Nat) : Nat := andNot15 (n + 15)

/-- The address of `area_->data` in a mapping at `base`: the data region
follows the header. -/
def dataPtr (L : Layout) (base : Nat) : Nat := base + L.hdrSize

/-- The method `unMapShmArea`: `munmap` unless `area_ == MAP_FAILED`; the
pointer itself is left as it is. -/
def ShmHolder.unMapShmArea (s : ShmHolder) : ShmHolder :=
  match s.area_ with
  | .mapFailed => s
  | .mapped base => { s with area_ := .released base }
  | .released _ => s

/-- Lines 185-225 of `resizeArea`, for the aligned `frameSize`: unmap,
`ftruncate`, `mmap`, and under the lock the new header fields. -/
def ShmHolder.remapArea (L : Layout) (s : ShmHolder) (frameSize : Nat)
    (os : ResizeOS) : Except Fault (ShmHolder × Bool) :=
  let areaSize := L.hdrSize + 2 * frameSize + 15
  let s1 := s.unMapShmArea
  if os.ftruncateOk = false then .ok (s1, false)
  else
    match os.mmapRes with
    | none => .ok ({ s1 with area_ := .mapFailed, areaSize_ := 0 }, false)
    | some base =>
      let s2 := { s1 with area_ := .mapped base, areaSize_ := areaSize }
      if frameSize = 0 then .ok (s2, true)
      else
        match SemGuardLock.acquire os.semWaitOk s2.header with
        | .error e => .error e
        | .ok h =>
          let p := dataPtr L base
          let wo := andNot15 (p + 15) - p
          let h1 : SHMHeader :=
            { h with frameSize := frameSize, mapSize := areaSize,
                     writeOffset := wo, readOffset := wo + frameSize }
          .ok ({ s2 with header := SemGuardLock.release h1 }, true)

/-- The method `resizeArea` (declared `noexcept`). -/
def ShmHolder.resizeArea (L : Layout) (s : ShmHolder) (frameSize : Nat)
    (os : ResizeOS) : Except Fault (ShmHolder × Bool) :=
  noexcept <|
    match s.area_ with
    | .released _ => .error .segv
    | .mapped _ =>
      if align16 frameSize = s.header.frameSize then .ok (s, true)
      else s.remapArea L (align16 frameSize) os
    | .mapFailed => s.remapArea L (align16 frameSize) os

/-- The block of `renderFrame` that scales the source into
`area_->data + area_->writeOffset`: the scaler writes `bytes` bytes there. -/
def ShmHolder.scaleInto (L : Layout) (s : ShmHolder) (bytes : Nat) :
    Except Fault ShmHolder :=
  match s.area_ with
  | .mapped _ =>
    if bytes = 0 ∨ s.header.writeOffset + bytes ≤ s.areaSize_ - L.hdrSize then
      .ok { s with pixelWrites := (s.header.writeOffset, bytes) :: s.pixelWrites }
    else .error .segv
  | _ => .error .segv

/-- The locked block of `renderFrame`: increment the generation, swap the
offsets, post the frame-ready semaphore. -/
def ShmHolder.publish (L : Layout) (s : ShmHolder) (semWaitOk : Bool) :
    Except Fault ShmHolder :=
  match s.area_ with
  | .mapped _ =>
    match SemGuardLock.acquire semWaitOk s.header with
    | .error e => .error e
    | .ok h =>
      let h1 : SHMHeader :=
        { h with frameGen := (h.frameGen + 1) % 2 ^ L.genBits,
                 readOffset := h.writeOffset,
                 writeOffset := h.readOffset,
                 frameGenMutex := h.frameGenMutex + 1 }
      .ok { s with header := SemGuardLock.release h1 }
  | _ => .error .segv

/-- The method `renderFrame` (declared `noexcept`). -/
def ShmHolder.renderFrame (L : Layout) (s : ShmHolder) (src : VideoFrame)
    (os : RenderOS) : Except Fault ShmHolder :=
  noexcept <|
    match s.resizeArea L (videoFrameSize .BGRA src.width src.height) os.resize with
    | .error e => .error e
    | .ok (s1, false) => .ok s1
    | .ok (s1, true) =>
      match s1.scaleInto L (videoFrameSize .BGRA src.width src.height) with
      | .error e => .error e
      | .ok s2 => s2.publish L os.publishSemWaitOk

/-- The holder whose `this` the lambda `static auto shmFailedWithErrno =
[this]` of the constructor holds.  The lambda is a function-local static: it
is initialised by the first construction of the process and keeps the `this`
of that holder in every later construction. -/
inductive CapturedThis where
  /-- this is the first construction of the process: the lambda captures the
  holder under construction -/
  | own
  /-- the lambda holds an earlier holder, which is still alive -/
  | alive
  /-- the lambda holds an earlier holder that has been destroyed, or whose
  construction failed -/
  | gone
  deriving DecidableEq

/-- The call `shmFailedWithErrno(what)`: it formats `openedName_` through the
captured `this` and throws `std::runtime_error`; through the `this` of a
holder that no longer exists the read is undefined behaviour. -/
def shmFailedWithErrno : CapturedThis → Fault
  | .own => .runtimeError
  | .alive => .runtimeError
  | .gone => .segv

/-- The environment of one construction: the outcomes of its system calls and
the holder captured by `shmFailedWithErrno`. -/
structure CtorOS where
  /-- the macro `PACKAGE_NAME` of `config.h` -/
  packageName : String
  /-- result of `getpid()` -/
  pid : Nat
  /-- `shm_open` on this name fails with an error other than `EEXIST` -/
  openErr : String → Bool
  /-- descriptor returned by a successful `shm_open` -/
  fd : Nat
  /-- system calls of `resizeArea(0)` -/
  resize : ResizeOS
  semInitMutexOk : Bool
  semInitFrameGenOk : Bool
  /-- the holder the lambda `shmFailedWithErrno` holds -/
  captured : CapturedThis

/-- Result of `shm_open` with `O_RDWR | O_CREAT | O_TRUNC | O_EXCL`. -/
inductive ShmOpen where
  | opened (fd : Nat)
  | eexist
  | failed
  deriving DecidableEq

/-- The call `::shm_open(name, flags, perms)` against the names `ns` present
in the shared-memory namespace. -/
def shmOpen (ns : List String) (os : CtorOS) (name : String) : ShmOpen :=
  if os.openErr name then .failed
  else if name ∈ ns then .eexist
  else .opened os.fd

/-- The name tried by the constructor at index `i`. -/
def tmpName (os : CtorOS) (i : Nat) : String :=
  os.packageName ++ "_shm_" ++ toString os.pid ++ "_" ++ toString i

/-- The loop `for (int i = 0; fd_ < 0; ++i)` of the constructor, from index
`i`, for at most `fuel` iterations. -/
def ShmHolder.probe (ns : List String) (os : CtorOS) :
    Nat → Nat → Except Fault (String × Nat)
  | 0, _ => .error .fuel
  | fuel + 1, i =>
    match shmOpen ns os (tmpName os i) with
    | .opened fd => .ok (tmpName os i, fd)
    | .eexist => ShmHolder.probe ns os fuel (i + 1)
    | .failed => .error (shmFailedWithErrno os.captured)

/-- Lines 128-142 of the constructor: the resolved name and the descriptor. -/
def ShmHolder.openSegment (ns : List String) (os : CtorOS) (fuel : Nat)
    (name : String) : Except Fault (String × Nat) :=
  if name ≠ "" then
    match shmOpen ns os name with
    | .opened fd => .ok (name, fd)
    | _ => .error (shmFailedWithErrno os.captured)
  else ShmHolder.probe ns os fuel 0

/-- Lines 144-157 of the constructor, on the holder with an open
descriptor: header-only mapping, zeroed header, the two `sem_init`. -/
def ShmHolder.initArea (L : Layout) (s : ShmHolder) (os : CtorOS) :
    Except Fault ShmHolder :=
  match s.resizeArea L 0 os.resize with
  | .error e => .error e
  | .ok (_, false) => .error (shmFailedWithErrno os.captured)
  | .ok (s1, true) =>
    match s1.area_ with
    | .mapped _ =>
      if os.semInitMutexOk = false then .error (shmFailedWithErrno os.captured)
      else if os.semInitFrameGenOk = false then
        .error (shmFailedWithErrno os.captured)
      else
        let z : SHMHeader := SHMHeader.zero
        let h1 : SHMHeader := { z with mutex := 1, frameGenMutex := 0 }
        .ok { s1 with header := h1 }
    | _ => .error .segv

/-- The constructor `ShmHolder::ShmHolder(name)`: the result and the
namespace it leaves behind. -/
def ShmHolder.create (L : Layout) (ns : List String) (os : CtorOS) (fuel : Nat)
    (name : String) : Except Fault ShmHolder × List String :=
  match ShmHolder.openSegment ns os fuel name with
  | .error e => (.error e, ns)
  | .ok (opened, fd) =>
    (ShmHolder.initArea L
      { area_ := .mapFailed, areaSize_ := 0, openedName_ := opened,
        fd_ := (fd : Int), header := SHMHeader.zero, pixelWrites := [] } os,
     opened :: ns)

/-- The destructor `ShmHolder::~ShmHolder()` and the namespace it leaves. -/
def ShmHolder.destroy (s : ShmHolder) (ns : List String) :
    Except Fault (ShmHolder × List String) :=
  if s.fd_ < 0 then .ok (s, ns)
  else
    let ns1 := ns.filter (fun n => n ≠ s.openedName_)
    match s.area_ with
    | .mapFailed => .ok (s, ns1)
    | .released _ => .error .segv
    | .mapped _ =>
      let h : SHMHeader := s.header
      let h1 : SHMHeader :=
        { h with frameSize := 0, frameGenMutex := h.frameGenMutex + 1 }
      .ok (ShmHolder.unMapShmArea { s with header := h1 }, ns1)

/-- The method `name()`. -/
def ShmHolder.name (s : ShmHolder) : String := s.openedName_

/-! ## `SinkClient` (the `HAVE_SHM` variant) -/

/-- The state of a `SinkClient`: `shm_` is the shared pointer (`none` when
null), `target_` tells whether a callback is registered, `targetData_` is the
size of the scratch buffer, and `targetCalls` records, newest first, the byte
count of the buffer handed to each invocation of the callback. -/
structure SinkClient where
  id_ : String
  shm_ : Option ShmHolder
  target_ : Bool
  targetData_ : Nat
  targetCalls : List Nat
  deriving DecidableEq

/-- The constructor `SinkClient::SinkClient(id)`. -/
def SinkClient.new (id : String) : SinkClient :=
  { id_ := id, shm_ := none, target_ := false, targetData_ := 0, targetCalls := [] }

/-- The method `openedName()`: `shm_->name()`. -/
def SinkClient.openedName (c : SinkClient) : Except Fault String :=
  match c.shm_ with
  | none => .error .segv
  | some h => .ok h.name

/-- The method `start()` (declared `noexcept`): the sink, the namespace and
the returned flag. -/
def SinkClient.start (L : Layout) (c : SinkClient) (ns : List String)
    (os : CtorOS) (fuel : Nat) : Except Fault (SinkClient × List String × Bool) :=
  match c.shm_ with
  | some _ => .ok (c, ns, true)
  | none =>
    match ShmHolder.create L ns os fuel "" with
    | (.ok h, ns1) => .ok ({ c with shm_ := some h }, ns1, true)
    | (.error .runtimeError, ns1) => .ok (c, ns1, false)
    | (.error e, _) => .error (noexceptFault e)

/-- The method `stop()` (declared `noexcept`): `shm_.reset()` runs the
destructor of the holder. -/
def SinkClient.stop (c : SinkClient) (ns : List String) :
    Except Fault (SinkClient × List String × Bool) :=
  match c.shm_ with
  | none => .ok (c, ns, true)
  | some h =>
    match h.destroy ns with
    | .error e => .error (noexceptFault e)
    | .ok (_, ns1) => .ok ({ c with shm_ := none }, ns1, true)

/-- The method `update(obs, frame_p)`. -/
def SinkClient.update (L : Layout) (c : SinkClient) (f : VideoFrame)
    (os : RenderOS) : Except Fault SinkClient :=
  match c.shm_ with
  | none => .error .segv
  | some h =>
    match h.renderFrame L f os with
    | .error e => .error e
    | .ok h1 =>
      if c.target_ then
        .ok { c with shm_ := some h1,
                     targetData_ := videoFrameSize .RGBA f.width f.height,
                     targetCalls := videoFrameSize .RGBA f.width f.height :: c.targetCalls }
      else .ok { c with shm_ := some h1 }

/-! ## Sequences of calls -/

/-- A call on a holder: `resizeArea(n)` or `renderFrame(f)`, each with the
outcomes of its system calls. -/
inductive Call where
  | resize (n : Nat) (os : ResizeOS)
  | render (f : VideoFrame) (os : RenderOS)
  deriving DecidableEq

/-- The byte size a call asks for. -/
def Call.requested : Call → Nat
  | .resize n _ => n
  | .render f _ => videoFrameSize .BGRA f.width f.height

/-- One call on a holder. -/
def ShmHolder.call (L : Layout) (s : ShmHolder) : Call → Except Fault ShmHolder
  | .resize n os =>
    match s.resizeArea L n os with
    | .error e => .error e
    | .ok (s1, _) => .ok s1
  | .render f os => s.renderFrame L f os

/-- A sequence of calls, stopping at the first fault. -/
def ShmHolder.run (L : Layout) : ShmHolder → List Call → Except Fault ShmHolder
  | s, [] => .ok s
  | s, c :: rest =>
    match s.call L c with
    | .error e => .error e
    | .ok s1 => ShmHolder.run L s1 rest

/-- A sequence of frame deliveries through `renderFrame`. -/
def ShmHolder.renderFrames (L : Layout) (s : ShmHolder)
    (frames : List (VideoFrame × RenderOS)) : Except Fault ShmHolder :=
  s.run L (frames.map (fun c => Call.render c.1 c.2))

/-- A successful `renderFrame`: the resize succeeds and the lock of the
publishing block is acquired. -/
def ShmHolder.published (L : Layout) (s : ShmHolder) : Call → Bool
  | .resize _ _ => false
  | .render f os =>
    match s.resizeArea L (videoFrameSize .BGRA f.width f.height) os.resize with
    | .ok (_, true) => os.publishSemWaitOk
    | _ => false

/-- The number of successful `renderFrame` calls in a sequence of calls. -/
def ShmHolder.publishedCount (L : Layout) : ShmHolder → List Call → Nat
  | _, [] => 0
  | s, c :: rest =>
    (if s.published L c then 1 else 0) +
      match s.call L c with
      | .error _ => 0
      | .ok s1 => ShmHolder.publishedCount L s1 rest

/-- No call of the sequence asks for byte size `0` while the header holds a
non-zero `frameSize`. -/
def ShmHolder.NoShrinkToZero (L : Layout) : ShmHolder → List Call → Prop
  | _, [] => True
  | s, c :: rest =>
    (c.requested ≠ 0 ∨ s.header.frameSize = 0) ∧
      match s.call L c with
      | .error _ => True
      | .ok s1 => ShmHolder.NoShrinkToZero L s1 rest

/-! ## Windows -/

/-- The write window `[writeOffset, writeOffset + frameSize)` and the read
window `[readOffset, readOffset + frameSize)` do not overlap. -/
def SHMHeader.windowsDisjoint (h : SHMHeader) : Prop :=
  h.writeOffset + h.frameSize ≤ h.readOffset ∨
    h.readOffset + h.frameSize ≤ h.writeOffset

/-- Both windows lie inside `[0, areaSize_ - sizeof(SHMHeader))`. -/
def ShmHolder.windowsInside (L : Layout) (s : ShmHolder) : Prop :=
  s.header.writeOffset + s.header.frameSize ≤ s.areaSize_ - L.hdrSize ∧
    s.header.readOffset + s.header.frameSize ≤ s.areaSize_ - L.hdrSize

/-- The two offsets are a padding of at most 15 bytes and that padding plus
one slot, in either order. -/
def SHMHeader.offsetsOk (h : SHMHeader) : Prop :=
  (h.writeOffset ≤ 15 ∧ h.readOffset = h.writeOffset + h.frameSize) ∨
    (h.readOffset ≤ 15 ∧ h.writeOffset = h.readOffset + h.frameSize)

/-- The mapping, when live, has the size the header's `frameSize` asks for,
and the offsets have their shape. -/
def ShmHolder.Inv (L : Layout) (s : ShmHolder) : Prop :=
  s.header.offsetsOk ∧
    ∀ base, s.area_ = .mapped base →
      s.areaSize_ = L.hdrSize + 2 * s.header.frameSize + 15

/-- The pointer `area_` is `MAP_FAILED` or points at a live mapping. -/
def ShmHolder.notReleased (s : ShmHolder) : Prop :=
  ∀ base, s.area_ ≠ .released base

/-- The header written by a successful resize to the non-zero aligned size
`m` with the new mapping at `base`. -/
def resizedHeader (L : Layout) (h : SHMHeader) (m base : Nat) : SHMHeader :=
  { mutex := h.mutex - 1 + 1, frameGenMutex := h.frameGenMutex,
    frameGen := h.frameGen, frameSize := m,
    mapSize := L.hdrSize + 2 * m + 15,
    writeOffset := andNot15 (dataPtr L base + 15) - dataPtr L base,
    readOffset := andNot15 (dataPtr L base + 15) - dataPtr L base + m }

/-- The call does not return early: `area_` is `MAP_FAILED`, or the aligned
size differs from the header's `frameSize`. -/
def ShmHolder.needsRemap (s : ShmHolder) (n : Nat) : Prop :=
  s.area_ = .mapFailed ∨
    ∃ b, s.area_ = .mapped b ∧ align16 n ≠ s.header.frameSize

/-- The holder after a successful resize to the non-zero aligned size `m`
with the new mapping at `base`. -/
def ShmHolder.resized (L : Layout) (s : ShmHolder) (m base : Nat) : ShmHolder :=
  { area_ := .mapped base, areaSize_ := L.hdrSize + 2 * m + 15,
    openedName_ := s.openedName_, fd_ := s.fd_,
    header := resizedHeader L s.header m base,
    pixelWrites := s.pixelWrites }

/-- The holder after the scaler wrote `bytes` bytes at the write offset and
the publishing block ran. -/
def ShmHolder.afterPublish (L : Layout) (s : ShmHolder) (bytes : Nat) : ShmHolder :=
  { area_ := s.area_, areaSize_ := s.areaSize_, openedName_ := s.openedName_,
    fd_ := s.fd_,
    header :=
      { mutex := s.header.mutex - 1 + 1,
        frameGenMutex := s.header.frameGenMutex + 1,
        frameGen := (s.header.frameGen + 1) % 2 ^ L.genBits,
        frameSize := s.header.frameSize, mapSize := s.header.mapSize,
        writeOffset := s.header.readOffset, readOffset := s.header.writeOffset },
    pixelWrites := (s.header.writeOffset, bytes) :: s.pixelWrites }

/-- The scaler's write of `bytes` bytes at the write offset stays inside the
data region of the mapping. -/
def ShmHolder.writeFits (L : Layout) (s : ShmHolder) (bytes : Nat) : Prop :=
  bytes = 0 ∨ s.header.writeOffset + bytes ≤ s.areaSize_ - L.hdrSize

/-- The byte size `renderFrame` computes for a frame. -/
def VideoFrame.bytes (f : VideoFrame) : Nat :=
  videoFrameSize .BGRA f.width f.height

/-! ## Concrete inputs -/

/-- A layout with an 88-byte header and a 32-bit generation counter. -/
def exLayout : Layout := { hdrSize := 88, genBits := 32 }

/-- System calls of a `renderFrame` that all succeed, the new mapping (if
any) being placed at `base`. -/
def allOkAt (base : Nat) : RenderOS :=
  { resize := { ftruncateOk := true, mmapRes := some base, semWaitOk := true },
    publishSemWaitOk := true }

/-- The first construction of process 7, every system call succeeding. -/
def exCtorOS : CtorOS :=
  { packageName := "ring", pid := 7, openErr := fun _ => false, fd := 3,
    resize := { ftruncateOk := true, mmapRes := some 4096, semWaitOk := true },
    semInitMutexOk := true, semInitFrameGenOk := true, captured := .own }

/-- The holder built by `exCtorOS` in an empty namespace. -/
def exFresh : ShmHolder :=
  { area_ := .mapped 4096, areaSize_ := 103, openedName_ := "ring_shm_7_0",
    fd_ := 3, header := { SHMHeader.zero with mutex := 1 }, pixelWrites := [] }

/-- The holder `exFresh` after one published 320x240 frame, the mapping having
moved to 8192. -/
def exQvga : ShmHolder :=
  { area_ := .mapped 8192, areaSize_ := 614503, openedName_ := "ring_shm_7_0",
    fd_ := 3,
    header := { mutex := 1, frameGenMutex := 1, frameGen := 1,
                frameSize := 307200, mapSize := 614503,
                writeOffset := 307208, readOffset := 8 },
    pixelWrites := [(8, 307200)] }

/-- The holder `exFresh` after a published 320x240 frame, a resize to 64
bytes whose `mmap` failed, and a second published 320x240 frame. -/
def exQvga2 : ShmHolder :=
  { area_ := .mapped 8192, areaSize_ := 614503, openedName_ := "ring_shm_7_0",
    fd_ := 3,
    header := { mutex := 1, frameGenMutex := 2, frameGen := 2,
                frameSize := 307200, mapSize := 614503,
                writeOffset := 307208, readOffset := 8 },
    pixelWrites := [(8, 307200), (8, 307200)] }

/-- The holder `exFresh` after a published 320x240 frame and then a published
frame of byte size 0, the mapping having moved to 12288. -/
def exStale : ShmHolder :=
  { area_ := .mapped 12288, areaSize_ := 103, openedName_ := "ring_shm_7_0",
    fd_ := 3,
    header := { mutex := 1, frameGenMutex := 2, frameGen := 2,
                frameSize := 307200, mapSize := 614503,
                writeOffset := 8, readOffset := 307208 },
    pixelWrites := [(307208, 0), (8, 307200)] }

/-- The holder `exFresh` after a published frame of byte size 0, a published
320x240 frame, a resize to 64 bytes whose `mmap` failed, and a second
published 320x240 frame. -/
def exQvga3 : ShmHolder :=
  { area_ := .mapped 8192, areaSize_ := 614503, openedName_ := "ring_shm_7_0",
    fd_ := 3,
    header := { mutex := 1, frameGenMutex := 3, frameGen := 3,
                frameSize := 307200, mapSize := 614503,
                writeOffset := 307208, readOffset := 8 },
    pixelWrites := [(8, 307200), (8, 307200), (0, 0)] }

/-- The first construction of process 7, its `shm_open` failing. -/
def exCtorFail : CtorOS :=
  { packageName := "ring", pid := 7, openErr := fun _ => true, fd := 3,
    resize := { ftruncateOk := true, mmapRes := some 4096, semWaitOk := true },
    semInitMutexOk := true, semInitFrameGenOk := true, captured := .own }

/-- The sink `"sink"` after a successful `start()` in an empty namespace. -/
def exStarted : SinkClient :=
  { id_ := "sink", shm_ := some exFresh, target_ := false, targetData_ := 0,
    targetCalls := [] }

/-- The holder after the destructor wrote `frameSize = 0` and posted the
frame-ready semaphore, before it unmaps. -/
def ShmHolder.signalled (s : ShmHolder) : ShmHolder :=
  { area_ := s.area_, areaSize_ := s.areaSize_, openedName_ := s.openedName_,
    fd_ := s.fd_,
    header :=
      { mutex := s.header.mutex,
        frameGenMutex := s.header.frameGenMutex + 1,
        frameGen := s.header.frameGen,
        frameSize := 0, mapSize := s.header.mapSize,
        writeOffset := s.header.writeOffset, readOffset := s.header.readOffset },
    pixelWrites := s.pixelWrites }

/-- The holder `exQvga` after a second published 320x240 frame. -/
def exQvgaTwice : ShmHolder :=
  { area_ := .mapped 8192, areaSize_ := 614503, openedName_ := "ring_shm_7_0",
    fd_ := 3,
    header := { mutex := 1, frameGenMutex := 2, frameGen := 2,
                frameSize := 307200, mapSize := 614503,
                writeOffset := 8, readOffset := 307208 },
    pixelWrites := [(307208, 307200), (8, 307200)] }

/-! ## Arithmetic of the alignment -/

theorem andNot15_le (x : Nat) : andNot15 x ≤ x := by
  unfold andNot15; omega

theorem andNot15_mod (x : Nat) : andNot15 x % 16 = 0 := by
  unfold andNot15; omega

theorem align16_mod (n : Nat) : align16 n % 16 = 0 := andNot15_mod _

theorem le_align16 (n : Nat) : n ≤ align16 n := by
  unfold align16 andNot15; omega

theorem align16_le (n : Nat) : align16 n ≤ n + 15 := by
  unfold align16 andNot15; omega

theorem align16_eq_zero (n : Nat) : align16 n = 0 ↔ n = 0 := by
  unfold align16 andNot15; omega

theorem align16_of_mod (n : Nat) (h : n % 16 = 0) : align16 n = n := by
  unfold align16 andNot15; omega

theorem pad_le (p : Nat) : andNot15 (p + 15) - p ≤ 15 := by
  unfold andNot15; omega

theorem pad_aligned (p : Nat) : (p + (andNot15 (p + 15) - p)) % 16 = 0 := by
  unfold andNot15; omega

/-- On 64-bit values `andNot15` is the bitwise `x & ~15`, the mask `~15`
being `2^64 - 16`. -/
theorem andNot15_eq_land (x : Nat) (hx : x < 2 ^ 64) :
    x &&& (2 ^ 64 - 16) = andNot15 x := by
  have h1 : andNot15 x = (x >>> 4) <<< 4 := by
    unfold andNot15
    rw [Nat.shiftLeft_eq, Nat.shiftRight_eq_div_pow]
    omega
  have h2 : (2 ^ 64 - 16 : Nat) = (2 ^ 60 - 1) <<< 4 := by
    rw [Nat.shiftLeft_eq]; norm_num
  rw [h1, h2]
  apply Nat.eq_of_testBit_eq
  intro i
  simp only [Nat.testBit_and, Nat.testBit_shiftLeft, Nat.testBit_shiftRight,
    Nat.testBit_two_pow_sub_one]
  by_cases hi : 4 ≤ i
  · have hsum : 4 + (i - 4) = i := by omega
    by_cases hj : i - 4 < 60
    · simp [hi, hj, hsum]
    · have hlt : x < 2 ^ i :=
        lt_of_lt_of_le hx (Nat.pow_le_pow_right (by decide) (by omega))
      simp [hi, hj, hsum, Nat.testBit_eq_false_of_lt hlt]
  · simp [hi]

/-! ## `resizeArea` by cases -/

theorem resizeArea_released (L : Layout) (s : ShmHolder) (n : Nat) (os : ResizeOS)
    (b : Nat) (h : s.area_ = .released b) :
    s.resizeArea L n os = .error .segv := by
  simp [ShmHolder.resizeArea, h, noexcept, noexceptFault]

theorem resizeArea_noop (L : Layout) (s : ShmHolder) (n : Nat) (os : ResizeOS)
    (b : Nat) (h : s.area_ = .mapped b) (he : align16 n = s.header.frameSize) :
    s.resizeArea L n os = .ok (s, true) := by
  simp [ShmHolder.resizeArea, h, he, noexcept]

theorem resizeArea_remap (L : Layout) (s : ShmHolder) (n : Nat) (os : ResizeOS)
    (h : s.area_ = .mapFailed ∨
      ∃ b, s.area_ = .mapped b ∧ align16 n ≠ s.header.frameSize) :
    s.resizeArea L n os = noexcept (s.remapArea L (align16 n) os) := by
  rcases h with h | ⟨b, h, hne⟩
  · simp [ShmHolder.resizeArea, h]
  · simp [ShmHolder.resizeArea, h, hne]

theorem remapArea_ftruncate_fail (L : Layout) (s : ShmHolder) (m : Nat)
    (os : ResizeOS) (h : os.ftruncateOk = false) :
    s.remapArea L m os = .ok (s.unMapShmArea, false) := by
  simp [ShmHolder.remapArea, h]

theorem remapArea_mmap_fail (L : Layout) (s : ShmHolder) (m : Nat)
    (os : ResizeOS) (h : os.ftruncateOk = true) (hm : os.mmapRes = none) :
    s.remapArea L m os =
      .ok ({ s.unMapShmArea with area_ := .mapFailed, areaSize_ := 0 }, false) := by
  simp [ShmHolder.remapArea, h, hm]

theorem remapArea_zero (L : Layout) (s : ShmHolder) (os : ResizeOS) (base : Nat)
    (h : os.ftruncateOk = true) (hm : os.mmapRes = some base) :
    s.remapArea L 0 os =
      .ok ({ s.unMapShmArea with area_ := .mapped base,
                                 areaSize_ := L.hdrSize + 15 }, true) := by
  simp [ShmHolder.remapArea, h, hm]

theorem remapArea_lock_fail (L : Layout) (s : ShmHolder) (m : Nat)
    (os : ResizeOS) (base : Nat) (h : os.ftruncateOk = true)
    (hm : os.mmapRes = some base) (h0 : m ≠ 0) (hw : os.semWaitOk = false) :
    s.remapArea L m os = .error .logicError := by
  simp [ShmHolder.remapArea, h, hm, h0, hw, SemGuardLock.acquire]

theorem remapArea_success (L : Layout) (s : ShmHolder) (m : Nat)
    (os : ResizeOS) (base : Nat) (h : os.ftruncateOk = true)
    (hm : os.mmapRes = some base) (h0 : m ≠ 0) (hw : os.semWaitOk = true) :
    s.remapArea L m os =
      .ok (s.resized L m base, true) := by
  cases hs : s.area_ <;>
    simp [ShmHolder.remapArea, h, hm, h0, hw, SemGuardLock.acquire,
      SemGuardLock.release, ShmHolder.unMapShmArea, hs, resizedHeader,
      ShmHolder.resized]

/-- Every way a `resizeArea` can go. -/
theorem resizeArea_cases (L : Layout) (s : ShmHolder) (n : Nat) (os : ResizeOS) :
    (∃ b, s.area_ = .released b ∧ s.resizeArea L n os = .error .segv) ∨
    (∃ b, s.area_ = .mapped b ∧ align16 n = s.header.frameSize ∧
      s.resizeArea L n os = .ok (s, true)) ∨
    (s.needsRemap n ∧ os.ftruncateOk = false ∧
      s.resizeArea L n os = .ok (s.unMapShmArea, false)) ∨
    (s.needsRemap n ∧ os.ftruncateOk = true ∧ os.mmapRes = none ∧
      s.resizeArea L n os =
        .ok ({ s.unMapShmArea with area_ := .mapFailed, areaSize_ := 0 }, false)) ∨
    (s.needsRemap n ∧ os.ftruncateOk = true ∧ n = 0 ∧
      ∃ base, os.mmapRes = some base ∧
        s.resizeArea L n os =
          .ok ({ s.unMapShmArea with area_ := .mapped base,
                                     areaSize_ := L.hdrSize + 15 }, true)) ∨
    (s.needsRemap n ∧ os.ftruncateOk = true ∧ n ≠ 0 ∧ os.semWaitOk = false ∧
      (∃ base, os.mmapRes = some base) ∧
        s.resizeArea L n os = .error .terminate) ∨
    (s.needsRemap n ∧ os.ftruncateOk = true ∧ n ≠ 0 ∧ os.semWaitOk = true ∧
      ∃ base, os.mmapRes = some base ∧
        s.resizeArea L n os = .ok (s.resized L (align16 n) base, true)) := by
  by_cases hrel : ∃ b, s.area_ = .released b
  · obtain ⟨b, hb⟩ := hrel
    exact Or.inl ⟨b, hb, resizeArea_released L s n os b hb⟩
  by_cases hnoop : ∃ b, s.area_ = .mapped b ∧ align16 n = s.header.frameSize
  · obtain ⟨b, hb, he⟩ := hnoop
    exact Or.inr (Or.inl ⟨b, hb, he, resizeArea_noop L s n os b hb he⟩)
  have hneed : s.needsRemap n := by
    unfold ShmHolder.needsRemap
    cases hs : s.area_ with
    | mapFailed => exact Or.inl rfl
    | mapped b =>
      refine Or.inr ⟨b, rfl, fun he => hnoop ⟨b, hs, he⟩⟩
    | released b => exact absurd ⟨b, hs⟩ hrel
  have hre := resizeArea_remap L s n os hneed
  right; right
  cases hft : os.ftruncateOk with
  | false =>
    left
    refine ⟨hneed, rfl, ?_⟩
    rw [hre, remapArea_ftruncate_fail L s _ os hft]; rfl
  | true =>
    right
    cases hmm : os.mmapRes with
    | none =>
      left
      refine ⟨hneed, rfl, rfl, ?_⟩
      rw [hre, remapArea_mmap_fail L s _ os hft hmm]; rfl
    | some base =>
      right
      by_cases h0 : n = 0
      · left
        refine ⟨hneed, rfl, h0, base, rfl, ?_⟩
        have hz : align16 n = 0 := (align16_eq_zero n).2 h0
        rw [hre, hz, remapArea_zero L s os base hft hmm]; rfl
      · right
        have hz : align16 n ≠ 0 := fun h => h0 ((align16_eq_zero n).1 h)
        cases hsw : os.semWaitOk with
        | false =>
          left
          refine ⟨hneed, rfl, h0, rfl, ⟨base, rfl⟩, ?_⟩
          rw [hre, remapArea_lock_fail L s _ os base hft hmm hz hsw]; rfl
        | true =>
          right
          refine ⟨hneed, rfl, h0, rfl, base, rfl, ?_⟩
          rw [hre, remapArea_success L s _ os base hft hmm hz hsw]; rfl

/-! ## `renderFrame` by cases -/

theorem resizeArea_true_mapped (L : Layout) (s s1 : ShmHolder) (n : Nat)
    (os : ResizeOS) (h : s.resizeArea L n os = .ok (s1, true)) :
    ∃ b, s1.area_ = .mapped b := by
  rcases resizeArea_cases L s n os with ⟨b, _, h1⟩ | ⟨b, hb, _, h1⟩ | ⟨_, _, h1⟩ |
    ⟨_, _, _, h1⟩ | ⟨_, _, _, base, _, h1⟩ | ⟨_, _, _, _, _, h1⟩ |
    ⟨_, _, _, _, base, _, h1⟩ <;> rw [h1] at h <;>
    simp only [Except.ok.injEq, Prod.mk.injEq, reduceCtorEq, Bool.false_eq_true,
      and_false, and_true] at h
  · exact ⟨b, h ▸ hb⟩
  · exact ⟨base, h ▸ rfl⟩
  · exact ⟨base, h ▸ rfl⟩

theorem renderFrame_resize_error (L : Layout) (s : ShmHolder) (f : VideoFrame)
    (os : RenderOS) (e : Fault)
    (h : s.resizeArea L f.bytes os.resize = .error e) :
    s.renderFrame L f os = .error (noexceptFault e) := by
  unfold VideoFrame.bytes at h
  simp [ShmHolder.renderFrame, h, noexcept]

theorem renderFrame_resize_false (L : Layout) (s s1 : ShmHolder) (f : VideoFrame)
    (os : RenderOS) (h : s.resizeArea L f.bytes os.resize = .ok (s1, false)) :
    s.renderFrame L f os = .ok s1 := by
  unfold VideoFrame.bytes at h
  simp [ShmHolder.renderFrame, h, noexcept]

theorem renderFrame_out_of_bounds (L : Layout) (s s1 : ShmHolder) (f : VideoFrame)
    (os : RenderOS) (h : s.resizeArea L f.bytes os.resize = .ok (s1, true))
    (hfit : ¬ s1.writeFits L f.bytes) :
    s.renderFrame L f os = .error .segv := by
  obtain ⟨b, hb⟩ := resizeArea_true_mapped L s s1 _ _ h
  unfold VideoFrame.bytes at h hfit
  unfold ShmHolder.writeFits at hfit
  simp [ShmHolder.renderFrame, h, noexcept, ShmHolder.scaleInto, hb, hfit,
    noexceptFault]

theorem renderFrame_lock_fail (L : Layout) (s s1 : ShmHolder) (f : VideoFrame)
    (os : RenderOS) (h : s.resizeArea L f.bytes os.resize = .ok (s1, true))
    (hfit : s1.writeFits L f.bytes) (hw : os.publishSemWaitOk = false) :
    s.renderFrame L f os = .error .terminate := by
  obtain ⟨b, hb⟩ := resizeArea_true_mapped L s s1 _ _ h
  unfold VideoFrame.bytes at h hfit
  unfold ShmHolder.writeFits at hfit
  simp [ShmHolder.renderFrame, h, noexcept, ShmHolder.scaleInto, hb, hfit,
    noexceptFault, ShmHolder.publish, SemGuardLock.acquire, hw]

theorem renderFrame_published (L : Layout) (s s1 : ShmHolder) (f : VideoFrame)
    (os : RenderOS) (h : s.resizeArea L f.bytes os.resize = .ok (s1, true))
    (hfit : s1.writeFits L f.bytes) (hw : os.publishSemWaitOk = true) :
    s.renderFrame L f os = .ok (s1.afterPublish L f.bytes) := by
  obtain ⟨b, hb⟩ := resizeArea_true_mapped L s s1 _ _ h
  unfold VideoFrame.bytes at h hfit ⊢
  unfold ShmHolder.writeFits at hfit
  simp [ShmHolder.renderFrame, h, noexcept, ShmHolder.scaleInto, hb, hfit,
    ShmHolder.publish, SemGuardLock.acquire, hw, SemGuardLock.release,
    ShmHolder.afterPublish]

/-! ## The invariant -/

theorem unMapShmArea_header (s : ShmHolder) : s.unMapShmArea.header = s.header := by
  unfold ShmHolder.unMapShmArea; split <;> rfl

theorem unMapShmArea_not_mapped (s : ShmHolder) (b : Nat) :
    s.unMapShmArea.area_ ≠ .mapped b := by
  unfold ShmHolder.unMapShmArea
  cases hs : s.area_ <;> simp [hs]

theorem inv_resized (L : Layout) (s : ShmHolder) (m base : Nat) :
    (s.resized L m base).Inv L := by
  refine ⟨Or.inl ⟨pad_le _, rfl⟩, ?_⟩
  intro b _
  rfl

theorem inv_afterPublish (L : Layout) (s : ShmHolder) (bytes : Nat)
    (h : s.Inv L) : (s.afterPublish L bytes).Inv L := by
  obtain ⟨ho, hm⟩ := h
  refine ⟨?_, fun b hb => hm b hb⟩
  rcases ho with ho | ho
  · exact Or.inr ho
  · exact Or.inl ho

/-- A `resizeArea` that returns keeps the invariant, unless it asks for size
`0` while the header holds a non-zero `frameSize`. -/
theorem inv_resizeArea (L : Layout) (s s1 : ShmHolder) (n : Nat) (os : ResizeOS)
    (b : Bool) (hinv : s.Inv L) (hadm : n ≠ 0 ∨ s.header.frameSize = 0)
    (h : s.resizeArea L n os = .ok (s1, b)) : s1.Inv L := by
  rcases resizeArea_cases L s n os with ⟨_, _, h1⟩ | ⟨_, _, _, h1⟩ | ⟨_, _, h1⟩ |
    ⟨_, _, _, h1⟩ | ⟨_, _, h0, base, _, h1⟩ | ⟨_, _, _, _, _, h1⟩ |
    ⟨_, _, _, _, base, _, h1⟩ <;> rw [h1] at h <;>
    simp only [Except.ok.injEq, Prod.mk.injEq, reduceCtorEq] at h
  · rw [← h.1]; exact hinv
  · rw [← h.1]
    exact ⟨by rw [unMapShmArea_header]; exact hinv.1,
      fun b hb => absurd hb (unMapShmArea_not_mapped s b)⟩
  · rw [← h.1]
    refine ⟨?_, fun b hb => ?_⟩
    · show s.unMapShmArea.header.offsetsOk
      rw [unMapShmArea_header]; exact hinv.1
    · simp at hb
  · rw [← h.1]
    have hfs : s.header.frameSize = 0 := by
      rcases hadm with hadm | hadm
      · exact absurd h0 hadm
      · exact hadm
    refine ⟨?_, fun b _ => ?_⟩
    · show s.unMapShmArea.header.offsetsOk
      rw [unMapShmArea_header]; exact hinv.1
    · show L.hdrSize + 15 = L.hdrSize + 2 * s.unMapShmArea.header.frameSize + 15
      rw [unMapShmArea_header, hfs]
  · rw [← h.1]; exact inv_resized L s _ base

/-- After a `resizeArea` that returns `true` the header holds the aligned
size, unless size `0` was asked while the header held a non-zero size. -/
theorem frameSize_resizeArea (L : Layout) (s s1 : ShmHolder) (n : Nat)
    (os : ResizeOS) (hadm : n ≠ 0 ∨ s.header.frameSize = 0)
    (h : s.resizeArea L n os = .ok (s1, true)) :
    s1.header.frameSize = align16 n := by
  rcases resizeArea_cases L s n os with ⟨_, _, h1⟩ | ⟨_, _, he, h1⟩ | ⟨_, _, h1⟩ |
    ⟨_, _, _, h1⟩ | ⟨_, _, h0, base, _, h1⟩ | ⟨_, _, _, _, _, h1⟩ |
    ⟨_, _, _, _, base, _, h1⟩ <;> rw [h1] at h <;>
    simp only [Except.ok.injEq, Prod.mk.injEq, reduceCtorEq, Bool.false_eq_true,
      and_false, and_true] at h
  · rw [← h]; exact he.symm
  · rw [← h]
    have hfs : s.header.frameSize = 0 := by
      rcases hadm with hadm | hadm
      · exact absurd h0 hadm
      · exact hadm
    show s.unMapShmArea.header.frameSize = align16 n
    rw [unMapShmArea_header, hfs, h0]; rfl
  · rw [← h]; rfl

/-- In a live mapping that satisfies the invariant a write of at most
`frameSize` bytes at the write offset stays inside the data region. -/
theorem writeFits_of_inv (L : Layout) (s : ShmHolder) (bytes b : Nat)
    (hinv : s.Inv L) (hb : s.area_ = .mapped b)
    (hle : bytes ≤ s.header.frameSize) : s.writeFits L bytes := by
  obtain ⟨ho, hm⟩ := hinv
  have ha := hm b hb
  right
  rw [ha]
  rcases ho with ⟨h1, h2⟩ | ⟨h1, h2⟩ <;> omega

/-- From a state that satisfies the invariant, the write that follows a
successful resize is inside the data region. -/
theorem writeFits_resizeArea (L : Layout) (s s1 : ShmHolder) (n : Nat)
    (os : ResizeOS) (hinv : s.Inv L)
    (h : s.resizeArea L n os = .ok (s1, true)) : s1.writeFits L n := by
  by_cases h0 : n = 0
  · exact Or.inl h0
  · obtain ⟨b, hb⟩ := resizeArea_true_mapped L s s1 n os h
    have hi := inv_resizeArea L s s1 n os true hinv (Or.inl h0) h
    have hf := frameSize_resizeArea L s s1 n os (Or.inl h0) h
    exact writeFits_of_inv L s1 n b hi hb (hf ▸ le_align16 n)

theorem windows_of_inv (L : Layout) (s : ShmHolder) (b : Nat)
    (hinv : s.Inv L) (hb : s.area_ = .mapped b) :
    s.header.windowsDisjoint ∧ s.windowsInside L := by
  obtain ⟨ho, hm⟩ := hinv
  have ha := hm b hb
  unfold SHMHeader.windowsDisjoint ShmHolder.windowsInside
  rw [ha]
  rcases ho with ⟨h1, h2⟩ | ⟨h1, h2⟩ <;> omega

/-- A `renderFrame` that returns either gave up after a failed resize or
published the frame. -/
theorem renderFrame_ok_cases (L : Layout) (s s2 : ShmHolder) (f : VideoFrame)
    (os : RenderOS) (h : s.renderFrame L f os = .ok s2) :
    (s.resizeArea L f.bytes os.resize = .ok (s2, false)) ∨
    (∃ s1, s.resizeArea L f.bytes os.resize = .ok (s1, true) ∧
      s1.writeFits L f.bytes ∧ os.publishSemWaitOk = true ∧
      s2 = s1.afterPublish L f.bytes) := by
  cases hr : s.resizeArea L f.bytes os.resize with
  | error e =>
    rw [renderFrame_resize_error L s f os e hr] at h
    cases h
  | ok r =>
    obtain ⟨s1, b⟩ := r
    cases b with
    | false =>
      rw [renderFrame_resize_false L s s1 f os hr] at h
      cases h
      exact Or.inl rfl
    | true =>
      right
      by_cases hfit : s1.writeFits L f.bytes
      · cases hw : os.publishSemWaitOk with
        | false =>
          rw [renderFrame_lock_fail L s s1 f os hr hfit hw] at h
          cases h
        | true =>
          rw [renderFrame_published L s s1 f os hr hfit hw] at h
          cases h
          exact ⟨s1, rfl, hfit, rfl, rfl⟩
      · rw [renderFrame_out_of_bounds L s s1 f os hr hfit] at h
        cases h

theorem inv_renderFrame (L : Layout) (s s2 : ShmHolder) (f : VideoFrame)
    (os : RenderOS) (hinv : s.Inv L)
    (hadm : f.bytes ≠ 0 ∨ s.header.frameSize = 0)
    (h : s.renderFrame L f os = .ok s2) : s2.Inv L := by
  rcases renderFrame_ok_cases L s s2 f os h with hr | ⟨s1, hr, _, _, rfl⟩
  · exact inv_resizeArea L s s2 _ _ false hinv hadm hr
  · exact inv_afterPublish L s1 _ (inv_resizeArea L s s1 _ _ true hinv hadm hr)

theorem inv_call (L : Layout) (s s1 : ShmHolder) (c : Call) (hinv : s.Inv L)
    (hadm : c.requested ≠ 0 ∨ s.header.frameSize = 0)
    (h : s.call L c = .ok s1) : s1.Inv L := by
  cases c with
  | resize n os =>
    simp only [ShmHolder.call] at h
    cases hr : s.resizeArea L n os with
    | error e => rw [hr] at h; cases h
    | ok r =>
      obtain ⟨s1a, b⟩ := r
      rw [hr] at h
      cases h
      exact inv_resizeArea L s s1 n os b hinv hadm hr
  | render f os =>
    exact inv_renderFrame L s s1 f os hinv hadm h

theorem inv_run (L : Layout) (calls : List Call) :
    ∀ (s s1 : ShmHolder), s.Inv L → s.NoShrinkToZero L calls →
      s.run L calls = .ok s1 → s1.Inv L := by
  induction calls with
  | nil =>
    intro s s1 hinv _ h
    simp only [ShmHolder.run] at h
    cases h
    exact hinv
  | cons c rest ih =>
    intro s s1 hinv hadm h
    simp only [ShmHolder.run] at h
    simp only [ShmHolder.NoShrinkToZero] at hadm
    cases hc : s.call L c with
    | error e => rw [hc] at h; cases h
    | ok s2 =>
      rw [hc] at h hadm
      exact ih s2 s1 (inv_call L s s2 c hinv hadm.1 hc) hadm.2 h

/-! ## The constructor -/

theorem initArea_ok (L : Layout) (s s1 : ShmHolder) (os : CtorOS)
    (hs : s.area_ = .mapFailed) (h : ShmHolder.initArea L s os = .ok s1) :
    ∃ base, s1.area_ = .mapped base ∧ s1.areaSize_ = L.hdrSize + 15 ∧
      s1.header = { SHMHeader.zero with mutex := 1 } ∧
      s1.openedName_ = s.openedName_ ∧ s1.fd_ = s.fd_ ∧
      s1.pixelWrites = s.pixelWrites := by
  unfold ShmHolder.initArea at h
  rcases resizeArea_cases L s 0 os.resize with ⟨b, hb, _⟩ | ⟨b, hb, _, _⟩ |
    ⟨_, _, h1⟩ | ⟨_, _, _, h1⟩ | ⟨_, _, _, base, _, h1⟩ | ⟨_, _, h0, _⟩ |
    ⟨_, _, h0, _⟩
  · rw [hs] at hb; cases hb
  · rw [hs] at hb; cases hb
  · rw [h1] at h; cases h
  · rw [h1] at h; cases h
  · rw [h1] at h
    simp only at h
    split at h
    · cases h
    · split at h
      · cases h
      · cases h
        refine ⟨base, rfl, rfl, rfl, ?_, ?_, ?_⟩ <;>
          simp [ShmHolder.unMapShmArea, hs]
  · exact absurd rfl h0
  · exact absurd rfl h0

theorem create_ok (L : Layout) (ns : List String) (os : CtorOS) (fuel : Nat)
    (name : String) (s0 : ShmHolder)
    (h : (ShmHolder.create L ns os fuel name).1 = .ok s0) :
    ∃ base, s0.area_ = .mapped base ∧ s0.areaSize_ = L.hdrSize + 15 ∧
      s0.header = { SHMHeader.zero with mutex := 1 } ∧ s0.pixelWrites = [] ∧
      0 ≤ s0.fd_ := by
  unfold ShmHolder.create at h
  cases ho : ShmHolder.openSegment ns os fuel name with
  | error e => rw [ho] at h; cases h
  | ok r =>
    obtain ⟨opened, fd⟩ := r
    rw [ho] at h
    simp only at h
    obtain ⟨base, h1, h2, h3, _, h5, h6⟩ := initArea_ok L _ s0 os rfl h
    exact ⟨base, h1, h2, h3, h6, by rw [h5]; exact Int.natCast_nonneg fd⟩

theorem create_inv (L : Layout) (ns : List String) (os : CtorOS) (fuel : Nat)
    (name : String) (s0 : ShmHolder)
    (h : (ShmHolder.create L ns os fuel name).1 = .ok s0) :
    s0.Inv L ∧ s0.notReleased ∧ s0.header.frameSize = 0 := by
  obtain ⟨base, h1, h2, h3, _, _⟩ := create_ok L ns os fuel name s0 h
  refine ⟨⟨?_, ?_⟩, ?_, ?_⟩
  · rw [h3]; exact Or.inl ⟨by decide, rfl⟩
  · intro b _; rw [h2, h3]; rfl
  · intro b hb; rw [h1] at hb; cases hb
  · rw [h3]; rfl

/-! ## Deliveries with every system call succeeding -/

theorem renderFrames_cons (L : Layout) (s : ShmHolder) (d : VideoFrame × RenderOS)
    (rest : List (VideoFrame × RenderOS)) :
    s.renderFrames L (d :: rest) =
      match s.renderFrame L d.1 d.2 with
      | .error e => .error e
      | .ok s1 => s1.renderFrames L rest := by
  simp only [ShmHolder.renderFrames, List.map_cons, ShmHolder.run, ShmHolder.call]

theorem renderFrames_nil (L : Layout) (s : ShmHolder) :
    s.renderFrames L [] = .ok s := rfl

/-- One delivery with every system call succeeding, from a state that
satisfies the invariant. -/
theorem renderFrame_allOk (L : Layout) (s : ShmHolder) (f : VideoFrame)
    (os : RenderOS) (hinv : s.Inv L) (hnr : s.notReleased)
    (hos : os.allOk = true) (hadm : f.bytes ≠ 0 ∨ s.header.frameSize = 0) :
    ∃ s1 s2, s.resizeArea L f.bytes os.resize = .ok (s1, true) ∧
      s2 = s1.afterPublish L f.bytes ∧
      s.renderFrame L f os = .ok s2 ∧ s2.Inv L ∧ s2.notReleased ∧
      s2.header.frameSize = align16 f.bytes := by
  simp only [RenderOS.allOk, Bool.and_eq_true] at hos
  obtain ⟨⟨⟨hft, hmm⟩, hsw⟩, hpub⟩ := hos
  have key : ∀ s1, s.resizeArea L f.bytes os.resize = .ok (s1, true) →
      ∃ s1 s2, s.resizeArea L f.bytes os.resize = .ok (s1, true) ∧
        s2 = s1.afterPublish L f.bytes ∧
        s.renderFrame L f os = .ok s2 ∧ s2.Inv L ∧ s2.notReleased ∧
        s2.header.frameSize = align16 f.bytes := by
    intro s1 hr
    obtain ⟨b, hb⟩ := resizeArea_true_mapped L s s1 _ _ hr
    have hfit := writeFits_resizeArea L s s1 _ _ hinv hr
    refine ⟨s1, _, hr, rfl, renderFrame_published L s s1 f os hr hfit hpub,
      inv_afterPublish L s1 _ (inv_resizeArea L s s1 _ _ true hinv hadm hr), ?_, ?_⟩
    · intro b2 hb2
      have : s1.area_ = .released b2 := hb2
      rw [hb] at this; cases this
    · exact frameSize_resizeArea L s s1 _ _ hadm hr
  rcases resizeArea_cases L s f.bytes os.resize with ⟨b, hb, _⟩ | ⟨_, _, _, h1⟩ |
    ⟨_, h0, _⟩ | ⟨_, _, h0, _⟩ | ⟨_, _, _, base, _, h1⟩ | ⟨_, _, _, h0, _⟩ |
    ⟨_, _, _, _, base, _, h1⟩
  · exact absurd hb (hnr b)
  · exact key _ h1
  · rw [hft] at h0; cases h0
  · rw [h0] at hmm; cases hmm
  · exact key _ h1
  · rw [hsw] at h0; cases h0
  · exact key _ h1

/-- Deliveries in which the frames of byte size `0` come first: after each
delivery the header holds the aligned size of the frame just delivered. -/
theorem renderFrames_allOk (L : Layout) (pre : List (VideoFrame × RenderOS)) :
    ∀ (s : ShmHolder) (zs nzs post : List (VideoFrame × RenderOS))
      (c : VideoFrame × RenderOS),
      s.Inv L → s.notReleased → (zs ≠ [] → s.header.frameSize = 0) →
      (∀ d ∈ zs, d.1.bytes = 0) → (∀ d ∈ nzs, d.1.bytes ≠ 0) →
      (∀ d ∈ zs ++ nzs, d.2.allOk = true) →
      zs ++ nzs = pre ++ c :: post →
      ∃ s1, s.renderFrames L (pre ++ [c]) = .ok s1 ∧
        s1.header.frameSize = align16 c.1.bytes := by
  induction pre with
  | nil =>
    intro s zs nzs post c hinv hnr hfs hz hnz hos hsplit
    have hc : c ∈ zs ++ nzs := by rw [hsplit]; simp
    have hadm : c.1.bytes ≠ 0 ∨ s.header.frameSize = 0 := by
      cases zs with
      | nil =>
        left
        exact hnz c (by simpa using hc)
      | cons z zs1 => exact Or.inr (hfs (by simp))
    obtain ⟨_, s2, _, _, hr, _, _, hf⟩ :=
      renderFrame_allOk L s c.1 c.2 hinv hnr (hos c hc) hadm
    refine ⟨s2, ?_, hf⟩
    rw [List.nil_append, renderFrames_cons, hr]
    rfl
  | cons d pre1 ih =>
    intro s zs nzs post c hinv hnr hfs hz hnz hos hsplit
    have hd : d ∈ zs ++ nzs := by rw [hsplit]; simp
    cases zs with
    | nil =>
      rw [List.nil_append] at hsplit hos hd
      cases nzs with
      | nil => cases hsplit
      | cons d1 nzs1 =>
        rw [List.cons_append] at hsplit
        injection hsplit with h1 h2
        subst h1
        obtain ⟨_, s2, _, _, hr, hi2, hn2, _⟩ :=
          renderFrame_allOk L s d1.1 d1.2 hinv hnr (hos d1 hd)
            (Or.inl (hnz d1 (by simp)))
        obtain ⟨s3, h3, hf3⟩ := ih s2 [] nzs1 post c hi2 hn2 (fun h => absurd rfl h)
          (fun _ h => by cases h) (fun x hx => hnz x (by simp [hx]))
          (fun x hx => hos x (by simp at hx; simp [hx])) h2
        refine ⟨s3, ?_, hf3⟩
        rw [List.cons_append, renderFrames_cons, hr]
        exact h3
    | cons z zs1 =>
      rw [List.cons_append, List.cons_append] at hsplit
      injection hsplit with h1 h2
      subst h1
      have hz0 : z.1.bytes = 0 := hz z (by simp)
      obtain ⟨_, s2, _, _, hr, hi2, hn2, hf2⟩ :=
        renderFrame_allOk L s z.1 z.2 hinv hnr (hos z hd)
          (Or.inr (hfs (by simp)))
      have hfs2 : s2.header.frameSize = 0 := by
        rw [hf2, hz0]; rfl
      obtain ⟨s3, h3, hf3⟩ := ih s2 zs1 nzs post c hi2 hn2 (fun _ => hfs2)
        (fun x hx => hz x (by simp [hx])) hnz
        (fun x hx => hos x (by
          rw [List.cons_append]
          exact List.mem_cons_of_mem _ hx)) h2
      refine ⟨s3, ?_, hf3⟩
      rw [List.cons_append, renderFrames_cons, hr]
      exact h3

/-! ## The generation counter -/

theorem frameGen_resizeArea (L : Layout) (s s1 : ShmHolder) (n : Nat)
    (os : ResizeOS) (b : Bool) (h : s.resizeArea L n os = .ok (s1, b)) :
    s1.header.frameGen = s.header.frameGen ∧
      s1.header.frameGenMutex = s.header.frameGenMutex ∧
      s1.pixelWrites = s.pixelWrites := by
  rcases resizeArea_cases L s n os with ⟨_, _, h1⟩ | ⟨_, _, _, h1⟩ | ⟨_, _, h1⟩ |
    ⟨_, _, _, h1⟩ | ⟨_, _, _, base, _, h1⟩ | ⟨_, _, _, _, _, h1⟩ |
    ⟨_, _, _, _, base, _, h1⟩ <;> rw [h1] at h <;>
    simp only [Except.ok.injEq, Prod.mk.injEq, reduceCtorEq] at h <;>
    rw [← h.1] <;>
    first
      | exact ⟨rfl, rfl, rfl⟩
      | (cases hs : s.area_ <;> simp [ShmHolder.unMapShmArea, hs])

theorem frameGen_call (L : Layout) (s s1 : ShmHolder) (c : Call)
    (h : s.call L c = .ok s1) :
    s1.header.frameGen =
      if s.published L c then (s.header.frameGen + 1) % 2 ^ L.genBits
      else s.header.frameGen := by
  cases c with
  | resize n os =>
    simp only [ShmHolder.call] at h
    cases hr : s.resizeArea L n os with
    | error e => rw [hr] at h; cases h
    | ok r =>
      obtain ⟨s1a, b⟩ := r
      rw [hr] at h
      cases h
      simp [ShmHolder.published, (frameGen_resizeArea L s s1 n os b hr).1]
  | render f os =>
    have h2 : s.renderFrame L f os = .ok s1 := h
    rcases renderFrame_ok_cases L s s1 f os h2 with hr | ⟨s1a, hr, _, hw, rfl⟩
    · unfold VideoFrame.bytes at hr
      simp [ShmHolder.published, hr, (frameGen_resizeArea L s s1 _ _ false hr).1]
    · have hg := (frameGen_resizeArea L s s1a _ _ true hr).1
      unfold VideoFrame.bytes at hr
      simp [ShmHolder.published, hr, hw, ShmHolder.afterPublish, hg]

theorem frameGen_run (L : Layout) (calls : List Call) :
    ∀ (s s1 : ShmHolder), s.header.frameGen < 2 ^ L.genBits →
      s.run L calls = .ok s1 →
      s1.header.frameGen =
        (s.header.frameGen + s.publishedCount L calls) % 2 ^ L.genBits := by
  induction calls with
  | nil =>
    intro s s1 hlt h
    simp only [ShmHolder.run] at h
    cases h
    simp [ShmHolder.publishedCount, Nat.mod_eq_of_lt hlt]
  | cons c rest ih =>
    intro s s1 hlt h
    simp only [ShmHolder.run] at h
    cases hc : s.call L c with
    | error e => rw [hc] at h; cases h
    | ok s2 =>
      rw [hc] at h
      have hg := frameGen_call L s s2 c hc
      have hpos : 0 < 2 ^ L.genBits := Nat.two_pow_pos L.genBits
      have hlt2 : s2.header.frameGen < 2 ^ L.genBits := by
        rw [hg]; split
        · exact Nat.mod_lt _ hpos
        · exact hlt
      rw [ih s2 s1 hlt2 h]
      simp only [ShmHolder.publishedCount, hc]
      rw [hg]
      split
      · rw [Nat.mod_add_mod]
        congr 1
        omega
      · congr 1
        omega

/-! ## Failed resizes -/

/-- From `area_ == MAP_FAILED` a `renderFrame` of a non-empty frame whose
system calls all succeed maps the segment again and publishes the frame. -/
theorem renderFrame_mapFailed (L : Layout) (s : ShmHolder) (f : VideoFrame)
    (os : RenderOS) (hs : s.area_ = .mapFailed) (h0 : f.bytes ≠ 0)
    (hos : os.allOk = true) :
    ∃ base, os.resize.mmapRes = some base ∧
      s.renderFrame L f os =
        .ok ((s.resized L (align16 f.bytes) base).afterPublish L f.bytes) := by
  simp only [RenderOS.allOk, Bool.and_eq_true] at hos
  obtain ⟨⟨⟨hft, hmm⟩, hsw⟩, hpub⟩ := hos
  rcases resizeArea_cases L s f.bytes os.resize with ⟨b, hb, _⟩ | ⟨b, hb, _, _⟩ |
    ⟨_, hf, _⟩ | ⟨_, _, hm, _⟩ | ⟨_, _, hz, _⟩ | ⟨_, _, _, hw, _⟩ |
    ⟨_, _, _, _, base, hb, h1⟩
  · rw [hs] at hb; cases hb
  · rw [hs] at hb; cases hb
  · rw [hft] at hf; cases hf
  · rw [hm] at hmm; cases hmm
  · exact absurd hz h0
  · rw [hsw] at hw; cases hw
  · refine ⟨base, hb, ?_⟩
    have hfit : (s.resized L (align16 f.bytes) base).writeFits L f.bytes :=
      writeFits_of_inv L _ _ base (inv_resized L s _ base) rfl (le_align16 _)
    exact renderFrame_published L s _ f os h1 hfit hpub

theorem offsetsOk_resizeArea (L : Layout) (s s1 : ShmHolder) (n : Nat)
    (os : ResizeOS) (b : Bool) (ho : s.header.offsetsOk)
    (h : s.resizeArea L n os = .ok (s1, b)) : s1.header.offsetsOk := by
  rcases resizeArea_cases L s n os with ⟨_, _, h1⟩ | ⟨_, _, _, h1⟩ | ⟨_, _, h1⟩ |
    ⟨_, _, _, h1⟩ | ⟨_, _, _, base, _, h1⟩ | ⟨_, _, _, _, _, h1⟩ |
    ⟨_, _, _, _, base, _, h1⟩ <;> rw [h1] at h <;>
    simp only [Except.ok.injEq, Prod.mk.injEq, reduceCtorEq] at h <;>
    rw [← h.1]
  · exact ho
  · rw [unMapShmArea_header]; exact ho
  · show s.unMapShmArea.header.offsetsOk
    rw [unMapShmArea_header]; exact ho
  · show s.unMapShmArea.header.offsetsOk
    rw [unMapShmArea_header]; exact ho
  · exact (inv_resized L s _ base).1

theorem offsetsOk_call (L : Layout) (s s1 : ShmHolder) (c : Call)
    (ho : s.header.offsetsOk) (h : s.call L c = .ok s1) :
    s1.header.offsetsOk := by
  cases c with
  | resize n os =>
    simp only [ShmHolder.call] at h
    cases hr : s.resizeArea L n os with
    | error e => rw [hr] at h; cases h
    | ok r =>
      obtain ⟨s1a, b⟩ := r
      rw [hr] at h
      cases h
      exact offsetsOk_resizeArea L s s1 n os b ho hr
  | render f os =>
    have h2 : s.renderFrame L f os = .ok s1 := h
    rcases renderFrame_ok_cases L s s1 f os h2 with hr | ⟨s1a, hr, _, _, rfl⟩
    · exact offsetsOk_resizeArea L s s1 _ _ false ho hr
    · have h1 := offsetsOk_resizeArea L s s1a _ _ true ho hr
      rcases h1 with h1 | h1
      · exact Or.inr h1
      · exact Or.inl h1

theorem offsetsOk_run (L : Layout) (calls : List Call) :
    ∀ (s s1 : ShmHolder), s.header.offsetsOk → s.run L calls = .ok s1 →
      s1.header.offsetsOk := by
  induction calls with
  | nil =>
    intro s s1 ho h
    simp only [ShmHolder.run] at h
    cases h
    exact ho
  | cons c rest ih =>
    intro s s1 ho h
    simp only [ShmHolder.run] at h
    cases hc : s.call L c with
    | error e => rw [hc] at h; cases h
    | ok s2 =>
      rw [hc] at h
      exact ih s2 s1 (offsetsOk_call L s s2 c ho hc) h

/-! ## Slot size after a delivery (C1) -/

/-- C1, the code at the failing input: on a freshly constructed holder a
320x240 frame followed by a frame of byte size 0, every system call
succeeding, leaves `frameSize` at 307200, while the aligned size of the frame
just delivered is 0.  `resizeArea` has remapped the segment to the header-only
size, but the block under `if (frameSize)` that writes the header was
skipped. -/
theorem frameSize_stale_after_empty_frame :
    (ShmHolder.create exLayout [] exCtorOS 1 "").1 = .ok exFresh ∧
    (allOkAt 8192).allOk = true ∧ (allOkAt 12288).allOk = true ∧
    (((exFresh.renderFrames exLayout
        [(⟨320, 240⟩, allOkAt 8192), (⟨0, 0⟩, allOkAt 12288)]).toOption.map
          (fun s => s.header.frameSize)) = some 307200) ∧
    align16 (videoFrameSize .BGRA 0 0) = 0 := by
  refine ⟨rfl, rfl, rfl, ?_, ?_⟩ <;> decide

/-- Deliveries on which the slot size is right: for every sequence of frames
in which the frames of byte size 0 (if any) all come before the frames of
non-zero byte size, delivered through `renderFrame` to a freshly constructed
holder with every system call succeeding, each delivery returns and the
header's `frameSize` after it equals
`align16(videoFrameSize(BGRA, width, height))` of the frame just delivered. -/
theorem renderFrames_frameSize_aligned (L : Layout) (ns : List String)
    (cos : CtorOS) (fuel : Nat) (name : String) (s0 : ShmHolder)
    (zs nzs pre post : List (VideoFrame × RenderOS)) (c : VideoFrame × RenderOS)
    (hcreate : (ShmHolder.create L ns cos fuel name).1 = .ok s0)
    (hz : ∀ d ∈ zs, videoFrameSize .BGRA d.1.width d.1.height = 0)
    (hnz : ∀ d ∈ nzs, videoFrameSize .BGRA d.1.width d.1.height ≠ 0)
    (hos : ∀ d ∈ zs ++ nzs, d.2.allOk = true)
    (hsplit : zs ++ nzs = pre ++ c :: post) :
    ∃ s1, s0.renderFrames L (pre ++ [c]) = .ok s1 ∧
      s1.header.frameSize = align16 (videoFrameSize .BGRA c.1.width c.1.height) := by
  obtain ⟨hinv, hnr, hfs⟩ := create_inv L ns cos fuel name s0 hcreate
  exact renderFrames_allOk L pre s0 zs nzs post c hinv hnr (fun _ => hfs) hz hnz
    hos hsplit

/-- The scenario of the specification: 320x240 then 640x480 on a fresh holder
leaves `frameSize = align16(640*480*4) = 1228800`. -/
theorem renderFrames_frameSize_aligned_witness :
    (ShmHolder.create exLayout [] exCtorOS 1 "").1 = .ok exFresh ∧
    (∃ s1, exFresh.renderFrames exLayout
        ([(⟨320, 240⟩, allOkAt 8192)] ++ [(⟨640, 480⟩, allOkAt 12288)]) = .ok s1 ∧
      s1.header.frameSize = align16 (videoFrameSize .BGRA 640 480)) ∧
    align16 (videoFrameSize .BGRA 640 480) = 1228800 :=
  ⟨rfl,
   renderFrames_frameSize_aligned exLayout [] exCtorOS 1 "" exFresh []
     [(⟨320, 240⟩, allOkAt 8192), (⟨640, 480⟩, allOkAt 12288)]
     [(⟨320, 240⟩, allOkAt 8192)] [] (⟨640, 480⟩, allOkAt 12288) rfl
     (fun _ h => by cases h)
     (by intro d hd; simp at hd; rcases hd with rfl | rfl <;> decide)
     (by intro d hd; simp at hd; rcases hd with rfl | rfl <;> rfl)
     rfl,
   by decide⟩

/-! ## Generation counter (C2) -/

/-- C2: in every sequence of `resizeArea` and `renderFrame` calls that
returns, started with a counter inside its range, the generation counter
`frameGen` ends at its initial value plus the number of successful
`renderFrame` calls (resize succeeded, lock acquired), modulo `2^w`: each
successful `renderFrame` adds exactly 1 whether or not it resized, and neither
`resizeArea` nor an abandoned `renderFrame` changes it.  The constructor
leaves the counter at the 0 of the initial zeroing. -/
theorem frameGen_counts_published (L : Layout) (s s1 : ShmHolder)
    (calls : List Call) (hlt : s.header.frameGen < 2 ^ L.genBits)
    (hrun : s.run L calls = .ok s1) :
    s1.header.frameGen =
        (s.header.frameGen + s.publishedCount L calls) % 2 ^ L.genBits ∧
      (∀ (f : VideoFrame) (os : RenderOS) (s2 : ShmHolder),
        s1.renderFrame L f os = .ok s2 →
        s1.published L (.render f os) = true →
        s2.header.frameGen = (s1.header.frameGen + 1) % 2 ^ L.genBits) ∧
      (∀ (n : Nat) (os : ResizeOS) (s2 : ShmHolder) (b : Bool),
        s1.resizeArea L n os = .ok (s2, b) →
        s2.header.frameGen = s1.header.frameGen) ∧
      (∀ (ns : List String) (cos : CtorOS) (fuel : Nat) (name : String)
        (s0 : ShmHolder),
        (ShmHolder.create L ns cos fuel name).1 = .ok s0 →
        s0.header.frameGen = 0) := by
  refine ⟨frameGen_run L calls s s1 hlt hrun, ?_, ?_, ?_⟩
  · intro f os s2 h hp
    have hg := frameGen_call L s1 s2 (.render f os) h
    rw [hp] at hg
    simpa using hg
  · intro n os s2 b h
    exact (frameGen_resizeArea L s1 s2 n os b h).1
  · intro ns cos fuel name s0 h
    obtain ⟨_, _, _, h3, _, _⟩ := create_ok L ns cos fuel name s0 h
    rw [h3]; rfl

/-- C2, witness: on the fresh holder two published frames of the same
geometry with a failed resize in between leave `frameGen = 2`. -/
theorem frameGen_counts_published_witness :
    exFresh.header.frameGen < 2 ^ exLayout.genBits ∧
    exFresh.run exLayout
      [.render ⟨320, 240⟩ (allOkAt 8192),
       .resize 64 { ftruncateOk := true, mmapRes := none, semWaitOk := true },
       .render ⟨320, 240⟩ (allOkAt 8192)] = .ok exQvga2 ∧
    exQvga2.header.frameGen =
      (exFresh.header.frameGen + exFresh.publishedCount exLayout
        [.render ⟨320, 240⟩ (allOkAt 8192),
         .resize 64 { ftruncateOk := true, mmapRes := none, semWaitOk := true },
         .render ⟨320, 240⟩ (allOkAt 8192)]) % 2 ^ exLayout.genBits ∧
    exQvga2.header.frameGen = 2 :=
  ⟨by decide, rfl,
   (frameGen_counts_published exLayout exFresh exQvga2
      [.render ⟨320, 240⟩ (allOkAt 8192),
       .resize 64 { ftruncateOk := true, mmapRes := none, semWaitOk := true },
       .render ⟨320, 240⟩ (allOkAt 8192)] (by decide) rfl).1, rfl⟩

/-! ## Window offsets (C3) -/

/-- C3, the code at the failing input: on a freshly constructed holder a
320x240 frame followed by a frame of byte size 0 (every system call
succeeding) ends in a live mapping of 103 bytes whose header still describes
two windows of 307200 bytes: neither window lies inside
`[0, areaSize_ - sizeof(SHMHeader))`.  A third frame of 320x240 then takes the
early return of `resizeArea` and is written past the mapping. -/
theorem windows_outside_after_empty_frame :
    (ShmHolder.create exLayout [] exCtorOS 1 "").1 = .ok exFresh ∧
    exFresh.run exLayout
      [.render ⟨320, 240⟩ (allOkAt 8192), .render ⟨0, 0⟩ (allOkAt 12288)] =
        .ok exStale ∧
    exStale.area_ = .mapped 12288 ∧
    exStale.areaSize_ - exLayout.hdrSize = 15 ∧
    exStale.header.frameSize = 307200 ∧
    ¬ exStale.windowsInside exLayout ∧
    exStale.resizeArea exLayout (videoFrameSize .BGRA 320 240)
      (allOkAt 12288).resize = .ok (exStale, true) ∧
    exStale.renderFrame exLayout ⟨320, 240⟩ (allOkAt 12288) = .error .segv := by
  refine ⟨rfl, rfl, rfl, by decide, rfl, ?_, rfl, rfl⟩
  unfold ShmHolder.windowsInside
  decide

/-- Runs on which the windows are right: in every state that has a live
mapping and is reached from construction by `resizeArea` and `renderFrame`
calls (whatever the outcomes of their system calls) none of which asks for
byte size 0 while the header holds a non-zero `frameSize`, the write window
and the read window are disjoint and both lie inside
`[0, areaSize_ - sizeof(SHMHeader))`. -/
theorem windows_disjoint_inside (L : Layout) (ns : List String) (cos : CtorOS)
    (fuel : Nat) (name : String) (s0 s : ShmHolder) (calls : List Call)
    (base : Nat)
    (hcreate : (ShmHolder.create L ns cos fuel name).1 = .ok s0)
    (hadm : s0.NoShrinkToZero L calls)
    (hrun : s0.run L calls = .ok s)
    (hlive : s.area_ = .mapped base) :
    s.header.windowsDisjoint ∧ s.windowsInside L := by
  obtain ⟨hinv, _, _⟩ := create_inv L ns cos fuel name s0 hcreate
  exact windows_of_inv L s base (inv_run L calls s0 s hinv hadm hrun) hlive

/-- An instance: the fresh holder after a frame of byte size 0, a published
320x240 frame, a resize whose `mmap` failed and a second published 320x240
frame. -/
theorem windows_disjoint_inside_witness :
    (ShmHolder.create exLayout [] exCtorOS 1 "").1 = .ok exFresh ∧
    exFresh.NoShrinkToZero exLayout
      [.render ⟨0, 0⟩ (allOkAt 8192), .render ⟨320, 240⟩ (allOkAt 8192),
       .resize 64 { ftruncateOk := true, mmapRes := none, semWaitOk := true },
       .render ⟨320, 240⟩ (allOkAt 8192)] ∧
    exQvga3.area_ = .mapped 8192 ∧
    (exQvga3.header.windowsDisjoint ∧ exQvga3.windowsInside exLayout) :=
  have hadm : exFresh.NoShrinkToZero exLayout
      [.render ⟨0, 0⟩ (allOkAt 8192), .render ⟨320, 240⟩ (allOkAt 8192),
       .resize 64 { ftruncateOk := true, mmapRes := none, semWaitOk := true },
       .render ⟨320, 240⟩ (allOkAt 8192)] := by
    simp [ShmHolder.NoShrinkToZero, ShmHolder.call, ShmHolder.renderFrame,
      ShmHolder.resizeArea, ShmHolder.remapArea, ShmHolder.scaleInto,
      ShmHolder.publish, ShmHolder.unMapShmArea, SemGuardLock.acquire,
      SemGuardLock.release, noexcept, exFresh, allOkAt, Call.requested,
      videoFrameSize, align16, andNot15, exLayout, SHMHeader.zero, dataPtr]
  ⟨rfl, hadm, rfl,
   windows_disjoint_inside exLayout [] exCtorOS 1 "" exFresh exQvga3 _ 8192 rfl
     hadm rfl rfl⟩

/-! ## The sink without a transport (C4, C5) -/

/-- C4: `openedName()` on a sink that holds no transport does not return the
empty string: `shm_->name()` goes through the null `shm_`.  This is so before
any `start()`, after a `start()` whose construction failed, and after
`stop()`; after a successful `start()` the resolved name is returned. -/
theorem openedName_without_transport_faults :
    (SinkClient.new "sink").openedName = .error .segv ∧
    SinkClient.start exLayout (SinkClient.new "sink") [] exCtorFail 1 =
      .ok (SinkClient.new "sink", [], false) ∧
    SinkClient.start exLayout (SinkClient.new "sink") [] exCtorOS 1 =
      .ok (exStarted, ["ring_shm_7_0"], true) ∧
    exStarted.openedName = .ok "ring_shm_7_0" ∧
    (∃ c ns, exStarted.stop ["ring_shm_7_0"] = .ok (c, ns, true) ∧
      c.shm_ = none ∧ ns = [] ∧ c.openedName = .error .segv) :=
  ⟨rfl, rfl, rfl, rfl, _, _, rfl, rfl, rfl, rfl⟩

/-- C5: `update` on a sink that holds no transport and has a callback
registered does not invoke the callback: `shm_->renderFrame` goes through the
null `shm_` first, for every frame.  This is so before any `start()` and after
a `start()` whose construction failed. -/
theorem update_without_transport_faults :
    (∀ (f : VideoFrame) (os : RenderOS),
      SinkClient.update exLayout
        { SinkClient.new "sink" with target_ := true } f os = .error .segv) ∧
    SinkClient.start exLayout { SinkClient.new "sink" with target_ := true } []
        exCtorFail 1 =
      .ok ({ SinkClient.new "sink" with target_ := true }, [], false) ∧
    SinkClient.update exLayout { SinkClient.new "sink" with target_ := true }
        ⟨100, 100⟩ (allOkAt 8192) = .error .segv :=
  ⟨fun _ _ => rfl, rfl, rfl⟩

/-- A failing construction after the first holder of the process is gone:
`shmFailedWithErrno` reads `openedName_` through the stale `this`, so `start()`
does not get the `std::runtime_error` it catches.  While the first holder is
alive the same failure is caught and `start()` returns `false`. -/
theorem start_failure_through_stale_this :
    SinkClient.start exLayout (SinkClient.new "sink") []
        { exCtorFail with captured := .gone } 1 = .error .segv ∧
    SinkClient.start exLayout (SinkClient.new "sink") []
        { exCtorFail with captured := .alive } 1 =
      .ok (SinkClient.new "sink", [], false) :=
  ⟨rfl, rfl⟩

/-! ## Failed resize (C6) -/

/-- C6, counterexample: on the holder with a live mapping for 320x240, a
resize to the size of 640x480 whose `ftruncate` fails returns `false` with the
old range already unmapped, and a later `renderFrame` of the previous geometry
reads the header through the released pointer; when `mmap` fails instead,
`area_` is `MAP_FAILED` and `areaSize_` is 0. -/
theorem resizeArea_failure_loses_mapping :
    exQvga.area_ = .mapped 8192 ∧ exQvga.areaSize_ = 614503 ∧
    exQvga.resizeArea exLayout 1228800
        { ftruncateOk := false, mmapRes := some 12288, semWaitOk := true } =
      .ok ({ exQvga with area_ := .released 8192 }, false) ∧
    ShmHolder.renderFrame exLayout { exQvga with area_ := .released 8192 }
        ⟨320, 240⟩ (allOkAt 12288) = .error .segv ∧
    exQvga.resizeArea exLayout 1228800
        { ftruncateOk := true, mmapRes := none, semWaitOk := true } =
      .ok ({ exQvga with area_ := .mapFailed, areaSize_ := 0 }, false) :=
  ⟨rfl, rfl, rfl, rfl, rfl⟩

/-- C6, amended: when `resizeArea` fails at the operating-system level
(`ftruncate` or `mmap` returns an error, so the call is not the early return
for an unchanged size) on a holder that had a live mapping, it returns
`false` and the header stored in the shared object (`frameGen`,
`frameSize`, `mapSize`, `writeOffset`, `readOffset`) is unchanged, but the
previous mapping is not kept: it was unmapped before the attempt.  When `mmap`
is the call that failed, `area_` is `MAP_FAILED` and `areaSize_` is 0, and a
later `renderFrame` of a non-empty frame whose system calls all succeed maps
the segment again and publishes the frame. -/
theorem resizeArea_failure (L : Layout) (s : ShmHolder) (n base : Nat)
    (os : ResizeOS) (hlive : s.area_ = .mapped base)
    (hne : align16 n ≠ s.header.frameSize)
    (hfail : os.ftruncateOk = false ∨ os.mmapRes = none) :
    ∃ s1, s.resizeArea L n os = .ok (s1, false) ∧ s1.header = s.header ∧
      (∀ b, s1.area_ ≠ .mapped b) ∧
      (os.ftruncateOk = true →
        s1.area_ = .mapFailed ∧ s1.areaSize_ = 0 ∧
        ∀ (f : VideoFrame) (os2 : RenderOS),
          videoFrameSize .BGRA f.width f.height ≠ 0 → os2.allOk = true →
          ∃ s2 b, s1.renderFrame L f os2 = .ok s2 ∧ s2.area_ = .mapped b ∧
            s2.header.frameSize = align16 (videoFrameSize .BGRA f.width f.height) ∧
            s2.header.frameGen = (s.header.frameGen + 1) % 2 ^ L.genBits) := by
  have hnot : ¬ ∃ b, s.area_ = .mapped b ∧ align16 n = s.header.frameSize := by
    rintro ⟨b, _, he⟩
    exact hne he
  rcases resizeArea_cases L s n os with ⟨b, hb, _⟩ | ⟨b, hb, he, _⟩ | ⟨_, hf, h1⟩ |
    ⟨_, hf, hm, h1⟩ | ⟨_, hf, _, b, hb, _⟩ | ⟨_, hf, _, _, ⟨b, hb⟩, _⟩ |
    ⟨_, hf, _, _, b, hb, _⟩
  · rw [hlive] at hb; cases hb
  · exact absurd ⟨b, hb, he⟩ hnot
  · refine ⟨_, h1, unMapShmArea_header s, unMapShmArea_not_mapped s, ?_⟩
    intro ht
    rw [hf] at ht; cases ht
  · refine ⟨_, h1, unMapShmArea_header s, fun b hb => by simp at hb, ?_⟩
    intro _
    refine ⟨rfl, rfl, ?_⟩
    intro f os2 h0 hos
    obtain ⟨b, _, hr⟩ := renderFrame_mapFailed L
      { s.unMapShmArea with area_ := .mapFailed, areaSize_ := 0 } f os2 rfl h0 hos
    refine ⟨_, b, hr, rfl, rfl, ?_⟩
    show (s.unMapShmArea.header.frameGen + 1) % 2 ^ L.genBits = _
    rw [unMapShmArea_header]
  · rcases hfail with hfail | hfail
    · rw [hf] at hfail; cases hfail
    · rw [hb] at hfail; cases hfail
  · rcases hfail with hfail | hfail
    · rw [hf] at hfail; cases hfail
    · rw [hb] at hfail; cases hfail
  · rcases hfail with hfail | hfail
    · rw [hf] at hfail; cases hfail
    · rw [hb] at hfail; cases hfail

/-- C6, witness: the resize of `exQvga` to the size of 640x480 with a failing
`mmap`. -/
theorem resizeArea_failure_witness :
    exQvga.area_ = .mapped 8192 ∧ align16 1228800 ≠ exQvga.header.frameSize ∧
    ∃ s1, exQvga.resizeArea exLayout 1228800
        { ftruncateOk := true, mmapRes := none, semWaitOk := true } =
          .ok (s1, false) ∧
      s1.header = exQvga.header ∧ s1.area_ = .mapFailed ∧ s1.areaSize_ = 0 :=
  ⟨rfl, by decide,
   (resizeArea_failure exLayout exQvga 1228800 8192
      { ftruncateOk := true, mmapRes := none, semWaitOk := true } rfl (by decide)
      (Or.inr rfl)).elim
     (fun s1 h => ⟨s1, h.1, h.2.1, (h.2.2.2 rfl).1, (h.2.2.2 rfl).2.1⟩)⟩

/-! ## Failures inside `renderFrame` (C7) -/

/-- C8: the destructor of a holder with an open descriptor and a live mapping
returns; while the region is still mapped it sets the header's `frameSize` to
0 and posts the frame-ready semaphore once (its count rises by exactly 1),
then unmaps the region; the segment's name is gone from the namespace and
the other names are kept.  The header left in the shared object has
`frameSize = 0`. -/
theorem destroy_live (s : ShmHolder) (ns : List String) (base : Nat)
    (hfd : 0 ≤ s.fd_) (hlive : s.area_ = .mapped base) :
    ∃ (s1 s2 : ShmHolder) (ns2 : List String), s.destroy ns = .ok (s2, ns2) ∧
      s1.area_ = .mapped base ∧ s1.header.frameSize = 0 ∧
      s1.header.frameGenMutex = s.header.frameGenMutex + 1 ∧
      s2 = s1.unMapShmArea ∧ s2.area_ = .released base ∧
      s2.header.frameSize = 0 ∧
      s2.header.frameGenMutex = s.header.frameGenMutex + 1 ∧
      s2.header.frameGen = s.header.frameGen ∧
      s.openedName_ ∉ ns2 ∧ (∀ n, n ≠ s.openedName_ → (n ∈ ns2 ↔ n ∈ ns)) := by
  have hfd2 : ¬ s.fd_ < 0 := not_lt.mpr hfd
  refine ⟨s.signalled, s.signalled.unMapShmArea,
    ns.filter (fun n => n ≠ s.openedName_), ?_, hlive, rfl, rfl, rfl, ?_, ?_, ?_,
    ?_, ?_, ?_⟩
  · simp only [ShmHolder.destroy, hfd2, if_false, hlive, ShmHolder.signalled]
  · simp [ShmHolder.unMapShmArea, ShmHolder.signalled, hlive]
  · simp [ShmHolder.unMapShmArea, ShmHolder.signalled, hlive]
  · simp [ShmHolder.unMapShmArea, ShmHolder.signalled, hlive]
  · simp [ShmHolder.unMapShmArea, ShmHolder.signalled, hlive]
  · simp [List.mem_filter]
  · intro n hn
    simp [List.mem_filter, hn]

/-- C8, witness: the destructor of the freshly constructed holder. -/
theorem destroy_live_witness :
    (ShmHolder.create exLayout [] exCtorOS 1 "").1 = .ok exFresh ∧
    (0 : Int) ≤ exFresh.fd_ ∧ exFresh.area_ = .mapped 4096 ∧
    ∃ (s2 : ShmHolder) (ns2 : List String),
      exFresh.destroy ["other", "ring_shm_7_0"] = .ok (s2, ns2) ∧
      s2.area_ = .released 4096 ∧ s2.header.frameSize = 0 ∧
      s2.header.frameGenMutex = exFresh.header.frameGenMutex + 1 ∧
      exFresh.openedName_ ∉ ns2 :=
  ⟨rfl, by decide, rfl,
   (destroy_live exFresh ["other", "ring_shm_7_0"] 4096 (by decide) rfl).elim
     (fun _ h => h.elim (fun s2 h => h.elim (fun ns2 h =>
       ⟨s2, ns2, h.1, h.2.2.2.2.2.1, h.2.2.2.2.2.2.1, h.2.2.2.2.2.2.2.1,
        h.2.2.2.2.2.2.2.2.2.1⟩)))⟩

/-! ## Offsets after a resize (C9) -/

/-- C9, counterexample: on the holder that has published one 320x240 frame,
`resizeArea` for the same size takes the early return of lines 182-183: it
returns `true` with no new mapping and with the offsets as the swap of
`renderFrame` left them, `writeOffset = 307208 > 15` and
`readOffset = 8`, which is not `writeOffset + s`. -/
theorem resizeArea_early_return_keeps_offsets :
    (ShmHolder.create exLayout [] exCtorOS 1 "").1 = .ok exFresh ∧
    exFresh.renderFrame exLayout ⟨320, 240⟩ (allOkAt 8192) = .ok exQvga ∧
    align16 307200 = 307200 ∧
    exQvga.resizeArea exLayout 307200 (allOkAt 8192).resize = .ok (exQvga, true) ∧
    exQvga.header.writeOffset = 307208 ∧
    ¬ exQvga.header.writeOffset ≤ 15 ∧
    exQvga.header.readOffset = 8 ∧
    exQvga.header.readOffset ≠ exQvga.header.writeOffset + 307200 :=
  ⟨rfl, rfl, by decide, rfl, rfl, by decide, rfl, by decide⟩

/-- C9, amended: a `resizeArea` to a non-zero size that maps anew (`area_` is
`MAP_FAILED`, or the aligned size `s` differs from the header's `frameSize`)
and whose system calls succeed returns `true`, and with `p` the address of the
data region in the new mapping: `writeOffset = ((p + 15) & ~15) - p`, so
`writeOffset <= 15` and `p + writeOffset` is a multiple of 16;
`readOffset = writeOffset + s`; `p + readOffset` is a multiple of 16; and
`writeOffset + 2*s <= 2*s + 15 = areaSize_ - sizeof(SHMHeader)`. -/
theorem resizeArea_offsets (L : Layout) (s : ShmHolder) (n base : Nat)
    (os : ResizeOS) (hneed : s.needsRemap n) (h0 : n ≠ 0)
    (hft : os.ftruncateOk = true) (hmm : os.mmapRes = some base)
    (hsw : os.semWaitOk = true) :
    ∃ s1, s.resizeArea L n os = .ok (s1, true) ∧ s1.area_ = .mapped base ∧
      s1.header.frameSize = align16 n ∧ align16 n ≠ 0 ∧
      s1.header.writeOffset = andNot15 (dataPtr L base + 15) - dataPtr L base ∧
      (dataPtr L base + 15 < 2 ^ 64 →
        s1.header.writeOffset =
          ((dataPtr L base + 15) &&& (2 ^ 64 - 16)) - dataPtr L base) ∧
      s1.header.writeOffset ≤ 15 ∧
      (dataPtr L base + s1.header.writeOffset) % 16 = 0 ∧
      s1.header.readOffset = s1.header.writeOffset + align16 n ∧
      (dataPtr L base + s1.header.readOffset) % 16 = 0 ∧
      s1.header.writeOffset + 2 * align16 n ≤ 2 * align16 n + 15 ∧
      2 * align16 n + 15 = s1.areaSize_ - L.hdrSize := by
  have hne : ¬ ∃ b, s.area_ = .mapped b ∧ align16 n = s.header.frameSize := by
    rintro ⟨b, hb, he⟩
    rcases hneed with hm | ⟨b2, _, hne⟩
    · rw [hm] at hb; cases hb
    · exact hne he
  rcases resizeArea_cases L s n os with ⟨b, hb, _⟩ | ⟨b, hb, he, _⟩ | ⟨_, hf, _⟩ |
    ⟨_, _, hm, _⟩ | ⟨_, _, hz, _⟩ | ⟨_, _, _, hw, _⟩ |
    ⟨_, _, _, _, base2, hb2, h1⟩
  · rcases hneed with hm | ⟨b2, hb2, _⟩
    · rw [hm] at hb; cases hb
    · rw [hb2] at hb; cases hb
  · exact absurd ⟨b, hb, he⟩ hne
  · rw [hft] at hf; cases hf
  · rw [hm] at hmm; cases hmm
  · exact absurd hz h0
  · rw [hsw] at hw; cases hw
  · rw [hmm] at hb2
    cases hb2
    have hz : align16 n ≠ 0 := fun h => h0 ((align16_eq_zero n).1 h)
    have hpad := pad_le (dataPtr L base)
    have hal := pad_aligned (dataPtr L base)
    have hmod := align16_mod n
    refine ⟨_, h1, rfl, rfl, hz, rfl, ?_, hpad, hal, rfl, ?_, ?_, ?_⟩
    · intro hlt
      rw [andNot15_eq_land _ hlt]
      rfl
    · show (dataPtr L base +
        (andNot15 (dataPtr L base + 15) - dataPtr L base + align16 n)) % 16 = 0
      omega
    · show andNot15 (dataPtr L base + 15) - dataPtr L base + 2 * align16 n ≤ _
      omega
    · show 2 * align16 n + 15 = L.hdrSize + 2 * align16 n + 15 - L.hdrSize
      omega

/-- C9, witness: the fresh holder resized for a 320x240 frame, the new mapping
at 8192, so that `p = 8280` and the padding is 8. -/
theorem resizeArea_offsets_witness :
    exFresh.needsRemap 307200 ∧
    ∃ s1, exFresh.resizeArea exLayout 307200
        { ftruncateOk := true, mmapRes := some 8192, semWaitOk := true } =
          .ok (s1, true) ∧
      s1.header.writeOffset = 8 ∧ s1.header.readOffset = 307208 ∧
      s1.areaSize_ = 614503 :=
  have hneed : exFresh.needsRemap 307200 := Or.inr ⟨4096, rfl, by decide⟩
  ⟨hneed,
   (resizeArea_offsets exLayout exFresh 307200 8192
      { ftruncateOk := true, mmapRes := some 8192, semWaitOk := true } hneed
      (by decide) rfl rfl rfl).elim
     (fun s1 h => ⟨s1, h.1, by
        have h2 := h.1
        have h3 : exFresh.resizeArea exLayout 307200
            { ftruncateOk := true, mmapRes := some 8192, semWaitOk := true } =
              .ok (exFresh.resized exLayout 307200 8192, true) := rfl
        rw [h3] at h2
        simp only [Except.ok.injEq, Prod.mk.injEq, and_true] at h2
        rw [← h2]
        exact ⟨by decide, by decide, rfl⟩⟩)⟩

/-! ## Double buffering (C10) -/

/-- C10: in a holder reached from construction, a successful `renderFrame` of
a frame with non-zero byte size (the resize returned `true`, the call
returned) publishes as `readOffset` the offset at which it wrote the pixels,
which is the `writeOffset` in force after the resize, and its new
`writeOffset` is the `readOffset` in force after the resize.  A second
successful `renderFrame` of the same geometry therefore writes at a different
offset, into a byte range that does not meet the first one, and restores the
pair (`writeOffset`, `readOffset`) the first call wrote under. -/
theorem renderFrame_swaps_windows (L : Layout) (ns : List String) (cos : CtorOS)
    (fuel : Nat) (name : String) (calls : List Call)
    (s0 s s1 s2 s3 : ShmHolder) (f : VideoFrame) (os os2 : RenderOS)
    (hcreate : (ShmHolder.create L ns cos fuel name).1 = .ok s0)
    (hrun : s0.run L calls = .ok s)
    (h0 : videoFrameSize .BGRA f.width f.height ≠ 0)
    (hr : s.resizeArea L (videoFrameSize .BGRA f.width f.height) os.resize =
      .ok (s1, true))
    (h2 : s.renderFrame L f os = .ok s2)
    (h3 : s2.renderFrame L f os2 = .ok s3) :
    s2.pixelWrites =
        (s1.header.writeOffset, videoFrameSize .BGRA f.width f.height) ::
          s.pixelWrites ∧
      s2.header.readOffset = s1.header.writeOffset ∧
      s2.header.writeOffset = s1.header.readOffset ∧
      s3.pixelWrites =
        (s1.header.readOffset, videoFrameSize .BGRA f.width f.height) ::
          s2.pixelWrites ∧
      s1.header.readOffset ≠ s1.header.writeOffset ∧
      (s1.header.writeOffset + videoFrameSize .BGRA f.width f.height ≤
          s1.header.readOffset ∨
        s1.header.readOffset + videoFrameSize .BGRA f.width f.height ≤
          s1.header.writeOffset) ∧
      s3.header.writeOffset = s1.header.writeOffset ∧
      s3.header.readOffset = s1.header.readOffset := by
  have hr1 : s.resizeArea L f.bytes os.resize = .ok (s1, true) := hr
  have h0b : f.bytes ≠ 0 := h0
  obtain ⟨hinv0, _, _⟩ := create_inv L ns cos fuel name s0 hcreate
  have ho := offsetsOk_run L calls s0 s hinv0.1 hrun
  have ho1 := offsetsOk_resizeArea L s s1 _ _ true ho hr1
  have hfs := frameSize_resizeArea L s s1 _ _ (Or.inl h0b) hr1
  have hpw := (frameGen_resizeArea L s s1 _ _ true hr1).2.2
  obtain ⟨b, hb⟩ := resizeArea_true_mapped L s s1 _ _ hr1
  have hz : align16 f.bytes ≠ 0 := fun h => h0b ((align16_eq_zero _).1 h)
  have hle := le_align16 f.bytes
  have e2 : s2 = s1.afterPublish L f.bytes := by
    rcases renderFrame_ok_cases L s s2 f os h2 with hf | ⟨s1a, hra, _, _, e⟩
    · rw [hr1] at hf; cases hf
    · rw [hr1] at hra
      cases hra
      exact e
  have hnoop : s2.resizeArea L f.bytes os2.resize = .ok (s2, true) := by
    apply resizeArea_noop L s2 _ _ b
    · rw [e2]; exact hb
    · rw [e2]; exact hfs.symm
  have e3 : s3 = s2.afterPublish L f.bytes := by
    rcases renderFrame_ok_cases L s2 s3 f os2 h3 with hf | ⟨s2a, hra, _, _, e⟩
    · rw [hnoop] at hf; cases hf
    · rw [hnoop] at hra
      cases hra
      exact e
  have hdiff : s1.header.readOffset ≠ s1.header.writeOffset ∧
      (s1.header.writeOffset + f.bytes ≤ s1.header.readOffset ∨
        s1.header.readOffset + f.bytes ≤ s1.header.writeOffset) := by
    rw [← hfs] at hz hle
    rcases ho1 with ⟨_, h⟩ | ⟨_, h⟩
    · exact ⟨by omega, Or.inl (by omega)⟩
    · exact ⟨by omega, Or.inr (by omega)⟩
  refine ⟨?_, ?_, ?_, ?_, hdiff.1, hdiff.2, ?_, ?_⟩
  · rw [e2, ← hpw]; rfl
  · rw [e2]; rfl
  · rw [e2]; rfl
  · rw [e3, e2]; rfl
  · rw [e3, e2]; rfl
  · rw [e3, e2]; rfl

/-- C10, witness: two 320x240 frames on the fresh holder, the first of which
resizes; the first is written at offset 8, the second at offset 307208. -/
theorem renderFrame_swaps_windows_witness :
    (ShmHolder.create exLayout [] exCtorOS 1 "").1 = .ok exFresh ∧
    exFresh.run exLayout [] = .ok exFresh ∧
    videoFrameSize .BGRA 320 240 ≠ 0 ∧
    exFresh.resizeArea exLayout (videoFrameSize .BGRA 320 240)
      (allOkAt 8192).resize = .ok (exFresh.resized exLayout 307200 8192, true) ∧
    exFresh.renderFrame exLayout ⟨320, 240⟩ (allOkAt 8192) = .ok exQvga ∧
    exQvga.renderFrame exLayout ⟨320, 240⟩ (allOkAt 8192) = .ok exQvgaTwice ∧
    exQvga.pixelWrites = [(8, 307200)] ∧
    exQvgaTwice.pixelWrites = [(307208, 307200), (8, 307200)] ∧
    exQvgaTwice.header.writeOffset = 8 ∧
    exQvgaTwice.header.readOffset = 307208 :=
  have h := renderFrame_swaps_windows exLayout [] exCtorOS 1 "" [] exFresh exFresh
    (exFresh.resized exLayout 307200 8192) exQvga exQvgaTwice ⟨320, 240⟩
    (allOkAt 8192) (allOkAt 8192) rfl rfl (by decide) rfl rfl rfl
  ⟨rfl, rfl, by decide, rfl, rfl, rfl, h.1, h.2.2.2.1, h.2.2.2.2.2.2.1,
   h.2.2.2.2.2.2.2⟩

end Ring.Video
